import Mathlib

/-!
# Modules/signalmodule.c

A shallow embedding of the signal module: the per-signal table `sig_list`, the
global `tripped` counter, the OS-level handler `signal_handler`, the Python-level
entry points `signal_signal` and `signal_getsignal`, the start-up routine
`initsignal`, and the two polling entry points `sigcheck` and `intrcheck`.

Conventions of the embedding.

* The C statics (`sig_list`, `tripped`, `main_thread`, `main_pid`) together with
  the kernel's table of signal dispositions form the explicit `State`.
* `NSIG`, `SIGINT`, the `WITH_THREAD` build switch and the set of signal numbers
  for which the C library's `signal()` answers `SIG_ERR` come from the platform
  headers and the C library, not from this file; they are the fields of
  `Platform`.
* `get_thread_ident()`, `getpid()` and `getframe()` are read from the caller's
  context and are passed in as arguments.
* A C `int` is an `Int`; the only arithmetic on one, `tripped++`, wraps modulo
  `2^32` through `int_wrap`.
* Python objects are compared by identity in the C code; `Obj` has one
  constructor per object the module distinguishes.
* Reference counts (`INCREF`/`DECREF`), argument parsing (`getargs`) and
  allocation failure (`mkvalue` returning `NULL`) are outside the embedding.
* `call_object` lives in the interpreter core.  What a callable does when it is
  called is supplied by a `Runtime`: a list of operations on this module
  (registering handlers, querying them, a signal arriving while the callable
  runs) followed by the callable's result.  A signal arriving runs
  `signal_handler` only if that is the signal's disposition.
-/

namespace SignalModule

/-! ## Data model -/

/-- Values of type `RETSIGTYPE (*)()`: what the C library's `signal()` takes and
returns.  `signal_handler` is the address of this module's handler, `foreign`
stands for any handler installed by somebody else. -/
inductive Sighandler
  | SIG_DFL
  | SIG_IGN
  | SIG_ERR
  | signal_handler
  | foreign (id : Nat)
  deriving DecidableEq

/-- Python objects, up to identity.  `sig_dfl_object`, `sig_ign_object` and
`default_int_handler_object` are the three module statics; `NULL` is the null
pointer; `other` is any object that is not a function, method or instance
method (for instance a fresh integer, a string or a class instance). -/
inductive Obj
  | NULL
  | None
  | sig_dfl_object
  | sig_ign_object
  | default_int_handler_object
  | methodobject (id : Nat)
  | funcobject (id : Nat)
  | instancemethodobject (id : Nat)
  | other (id : Nat)
  deriving DecidableEq

/-- The exceptions the module sets (`err_setstr`, `err_errno`, `err_set`), plus
`Exception` for whatever else a user callable may raise. -/
inductive PyErr
  | ValueError (msg : String)
  | TypeError (msg : String)
  | RuntimeError
  | KeyboardInterrupt
  | Exception (id : Nat)
  deriving DecidableEq

/-- The error kinds as the specification names them (section 7). -/
inductive ErrorKind
  | ValueError
  | TypeError
  | PermissionError
  | RuntimeError
  | Interrupted
  deriving DecidableEq

/-- The specification's kind of an exception set by the code: the exception's
own name, `KeyboardInterrupt` being the Interrupted kind.  No exception of the
code is of kind `PermissionError`. -/
def PyErr.kind : PyErr → Option ErrorKind
  | .ValueError _ => some .ValueError
  | .TypeError _ => some .TypeError
  | .RuntimeError => some .RuntimeError
  | .KeyboardInterrupt => some .Interrupted
  | .Exception _ => none

/-- Platform constants and build switches the module is compiled against. -/
structure Platform where
  /-- Number of signals, from `<signal.h>`. -/
  NSIG : Nat
  /-- Number of the interrupt signal, from `<signal.h>`. -/
  SIGINT : Nat
  /-- Whether the module is built with `WITH_THREAD` defined. -/
  WITH_THREAD : Bool
  /-- Signal numbers for which the C library's `signal()` fails. -/
  uncatchable : Nat → Bool

/-- One entry of `sig_list`: `struct signalhandler_list`. -/
structure signalhandler_list where
  tripped : Int
  func : Obj

/-- The module's statics and the kernel's disposition table. -/
structure State where
  /-- The static `struct signalhandler_list sig_list[NSIG]`. -/
  sig_list : Nat → signalhandler_list
  /-- The static `int tripped`. -/
  tripped : Int
  /-- The static `long main_thread`. -/
  main_thread : Int
  /-- The static `pid_t main_pid`. -/
  main_pid : Int
  /-- The handler the kernel holds as disposition of each signal number; the
  flags and the mask that go with a handler are not part of the state. -/
  disposition : Nat → Sighandler

/-- The value of a C `int` expression: two's complement wrap-around to 32 bits. -/
def int_wrap (x : Int) : Int :=
  (x + 2147483648) % 4294967296 - 2147483648

/-- The statics as the loader leaves them (all zero), over the dispositions the
process starts with. -/
def static_state (disposition : Nat → Sighandler) : State :=
  { sig_list := fun _ => { tripped := 0, func := Obj.NULL },
    tripped := 0,
    main_thread := 0,
    main_pid := 0,
    disposition := disposition }

/-! ## The C library's `signal()` -/

/-- Model of the C library call `signal(sig, func)`: it fails with `SIG_ERR`,
changing nothing, for the signal numbers the platform does not let a process
catch; otherwise it installs `func` and returns the previous disposition. -/
def signal (p : Platform) (sig : Nat) (func : Sighandler) (s : State) :
    Sighandler × State :=
  if p.uncatchable sig = true then
    (Sighandler.SIG_ERR, s)
  else
    (s.disposition sig,
      { s with disposition := Function.update s.disposition sig func })

/-! ## `default_int_handler` and `signal_handler` -/

/-- The C function `default_int_handler(self, arg)`: sets `KeyboardInterrupt` and returns
`NULL`. -/
def default_int_handler (_self : Obj) (_arg : Int × Obj) (s : State) :
    Except PyErr Obj × State :=
  (Except.error PyErr.KeyboardInterrupt, s)

/-- The C function `signal_handler(sig_num)`, run by the kernel in a process whose `getpid()`
is `pid`. -/
def signal_handler (p : Platform) (pid : Int) (sig_num : Nat) (s : State) : State :=
  let s1 : State :=
    if p.WITH_THREAD = false ∨ pid = s.main_pid then
      let s0 : State := { s with tripped := int_wrap (s.tripped + 1) }
      { s0 with
        sig_list := Function.update s0.sig_list sig_num
          { s0.sig_list sig_num with tripped := 1 } }
    else s
  (signal p sig_num Sighandler.signal_handler s1).2

/-! ## `signal_signal` and `signal_getsignal` -/

/-- The test `is_methodobject(obj)`; `default_int_handler_object` is made by
`newmethodobject`. -/
def is_methodobject : Obj → Bool
  | .default_int_handler_object => true
  | .methodobject _ => true
  | _ => false

/-- The test `is_funcobject(obj)`. -/
def is_funcobject : Obj → Bool
  | .funcobject _ => true
  | _ => false

/-- The test `is_instancemethodobject(obj)`. -/
def is_instancemethodobject : Obj → Bool
  | .instancemethodobject _ => true
  | _ => false

/-- An object `signal_signal` takes for a callable: a method, function or
instance-method object. -/
def is_callable (obj : Obj) : Bool :=
  is_methodobject obj || is_funcobject obj || is_instancemethodobject obj

/-- The part of `signal_signal` after `func` has been chosen: from
`if (signal(sig_num, func) == SIG_ERR)` to `return old_handler`. -/
def signal_signal_install (p : Platform) (sig_num : Int) (obj : Obj) (func : Sighandler)
    (s : State) : Except PyErr Obj × State :=
  let r := signal p sig_num.toNat func s
  if r.1 = Sighandler.SIG_ERR then
    (Except.error PyErr.RuntimeError, r.2)
  else
    let old_handler := (r.2.sig_list sig_num.toNat).func
    (Except.ok old_handler,
      { r.2 with
        sig_list := Function.update r.2.sig_list sig_num.toNat
          { tripped := 0, func := obj } })

/-- The C function `signal_signal(self, args)` with `args = (sig_num, obj)`, called on the
thread whose `get_thread_ident()` is `thread_ident`.  Returns the old handler,
or the exception set together with a `NULL` return. -/
def signal_signal (p : Platform) (thread_ident : Int) (sig_num : Int) (obj : Obj)
    (s : State) : Except PyErr Obj × State :=
  if p.WITH_THREAD = true ∧ thread_ident ≠ s.main_thread then
    (Except.error (PyErr.ValueError "signal only works in main thread"), s)
  else if sig_num < 1 ∨ sig_num ≥ (p.NSIG : Int) then
    (Except.error (PyErr.ValueError "signal number out of range"), s)
  else if obj = Obj.sig_ign_object then
    signal_signal_install p sig_num obj Sighandler.SIG_IGN s
  else if obj = Obj.sig_dfl_object then
    signal_signal_install p sig_num obj Sighandler.SIG_DFL s
  else if is_methodobject obj = false ∧ is_funcobject obj = false ∧
      is_instancemethodobject obj = false then
    (Except.error (PyErr.TypeError
      "signal handler must be signal.SIG_IGN, signal.SIG_DFL, or a callable object"), s)
  else
    signal_signal_install p sig_num obj Sighandler.signal_handler s

/-- The C function `signal_getsignal(self, args)` with `args = sig_num`. -/
def signal_getsignal (p : Platform) (sig_num : Int) (s : State) :
    Except PyErr Obj × State :=
  if sig_num < 1 ∨ sig_num ≥ (p.NSIG : Int) then
    (Except.error (PyErr.ValueError "signal number out of range"), s)
  else
    let old_handler := (s.sig_list sig_num.toNat).func
    (Except.ok old_handler, s)

/-! ## `initsignal` -/

/-- The body of `for (i = 1; i < NSIG; i++)` in `initsignal`, run for `fuel`
more iterations starting at `i`. -/
def initsignal_loop (p : Platform) : Nat → Nat → State → State
  | 0, _, s => s
  | fuel + 1, i, s =>
    let r := signal p i Sighandler.SIG_IGN s
    let t := r.1
    let s2 := (signal p i t r.2).2
    let func : Obj :=
      if t = Sighandler.SIG_DFL then Obj.sig_dfl_object
      else if t = Sighandler.SIG_IGN then Obj.sig_ign_object
      else Obj.None
    initsignal_loop p fuel (i + 1)
      { s2 with
        sig_list := Function.update s2.sig_list i { tripped := 0, func := func } }

/-- The C function `initsignal()`, called on the thread `thread_ident` of the process `pid`;
the part that fills in the statics and probes the dispositions. -/
def initsignal (p : Platform) (thread_ident pid : Int) (s : State) : State :=
  let s0 : State :=
    if p.WITH_THREAD = true then
      { s with main_thread := thread_ident, main_pid := pid }
    else s
  let s1 : State :=
    { s0 with
      sig_list := Function.update s0.sig_list 0 { s0.sig_list 0 with tripped := 0 } }
  let s2 := initsignal_loop p (p.NSIG - 1) 1 s1
  if (s2.sig_list p.SIGINT).func = Obj.sig_dfl_object then
    let s3 : State :=
      { s2 with
        sig_list := Function.update s2.sig_list p.SIGINT
          { s2.sig_list p.SIGINT with func := Obj.default_int_handler_object } }
    (signal p p.SIGINT Sighandler.signal_handler s3).2
  else s2

/-! ## Calling a handler -/

/-- What a running callable may do to this module. -/
inductive Op
  /-- The callable calls `signal.signal(sig_num, obj)`. -/
  | signal (sig_num : Int) (obj : Obj)
  /-- The callable calls `signal.getsignal(sig_num)`. -/
  | getsignal (sig_num : Int)
  /-- Signal `sig_num` is delivered while the callable is running, in a process
  whose `getpid()` is `pid`: the kernel runs `signal_handler` if that is the
  disposition of `sig_num` at that moment. -/
  | deliver (pid : Int) (sig_num : Nat)
  deriving DecidableEq

/-- The observable behaviour of one call of a callable: the module operations
it performs, in order, and its result (`error` standing for a `NULL` return with
the exception set). -/
structure Behaviour where
  ops : List Op
  result : Except PyErr Obj

/-- The interpreter core, as far as this module uses it: what calling an object
with the argument tuple `(sig_num, frame)` does. -/
structure Runtime where
  call : Obj → Int → Obj → Behaviour

/-- What the kernel does to this module when signal `sig_num` is delivered to a
process whose `getpid()` is `pid`: it runs `signal_handler` when that is the
signal's disposition; under any other disposition the module's code does not
run. -/
def kernel_deliver (p : Platform) (pid : Int) (sig_num : Nat) (s : State) : State :=
  if s.disposition sig_num = Sighandler.signal_handler then
    signal_handler p pid sig_num s
  else s

/-- One operation of a callable, run on the thread `thread_ident`. -/
def run_op (p : Platform) (thread_ident : Int) (s : State) : Op → State
  | .signal sig_num obj => (signal_signal p thread_ident sig_num obj s).2
  | .getsignal sig_num => (signal_getsignal p sig_num s).2
  | .deliver pid sig_num => kernel_deliver p pid sig_num s

/-- The call `call_object(func, arglist)` with `arglist = (sig_num, frame)`.  The built-in
method `default_int_handler_object` runs `default_int_handler`; every other
object behaves as the runtime says. -/
def call_object (p : Platform) (rt : Runtime) (thread_ident : Int) (func : Obj)
    (sig_num : Int) (frame : Obj) (s : State) : Except PyErr Obj × State :=
  match func with
  | .default_int_handler_object => default_int_handler Obj.NULL (sig_num, frame) s
  | f =>
    let b := rt.call f sig_num frame
    (b.result, b.ops.foldl (run_op p thread_ident) s)

/-! ## `sigcheck` and `intrcheck` -/

/-- One call made by `sigcheck`: the object called and the argument tuple
`(sig_num, frame)`. -/
structure Call where
  func : Obj
  sig_num : Int
  frame : Obj
  deriving DecidableEq

/-- What `sigcheck` does: its return value, the exception left set (if any),
the calls it made in order, and the state it leaves. -/
structure SigcheckResult where
  ret : Int
  err : Option PyErr
  calls : List Call
  state : State

/-- The loop `for (i = ...; i < NSIG; i++)` of `sigcheck` together with the code
after it, run for `fuel` more iterations starting at `i`. -/
def sigcheck_loop (p : Platform) (rt : Runtime) (thread_ident : Int) (f : Obj) :
    Nat → Nat → State → SigcheckResult
  | 0, _, s => { ret := 0, err := none, calls := [], state := { s with tripped := 0 } }
  | fuel + 1, i, s =>
    if (s.sig_list i).tripped ≠ 0 then
      let s1 : State :=
        { s with
          sig_list := Function.update s.sig_list i { s.sig_list i with tripped := 0 } }
      let c : Call := { func := (s1.sig_list i).func, sig_num := (i : Int), frame := f }
      let r := call_object p rt thread_ident (s1.sig_list i).func (i : Int) f s1
      match r.1 with
      | Except.error e => { ret := 1, err := some e, calls := [c], state := r.2 }
      | Except.ok _ =>
        let rest := sigcheck_loop p rt thread_ident f fuel (i + 1) r.2
        { rest with calls := c :: rest.calls }
    else
      sigcheck_loop p rt thread_ident f fuel (i + 1) s

/-- The frame argument `sigcheck` passes on: `f = getframe(); if (f == NULL)
f = None;`. -/
def frame_arg (frame : Obj) : Obj :=
  if frame = Obj.NULL then Obj.None else frame

/-- The C function `sigcheck()`, called on the thread `thread_ident` while `getframe()` is
`frame`. -/
def sigcheck (p : Platform) (rt : Runtime) (thread_ident : Int) (frame : Obj)
    (s : State) : SigcheckResult :=
  if s.tripped = 0 then
    { ret := 0, err := none, calls := [], state := s }
  else if p.WITH_THREAD = true ∧ thread_ident ≠ s.main_thread then
    { ret := 0, err := none, calls := [], state := s }
  else
    let f := frame_arg frame
    sigcheck_loop p rt thread_ident f (p.NSIG - 1) 1 s

/-- The C function `intrcheck()`, called on the thread `thread_ident`. -/
def intrcheck (p : Platform) (thread_ident : Int) (s : State) : Int × State :=
  if (s.sig_list p.SIGINT).tripped ≠ 0 then
    if p.WITH_THREAD = true ∧ thread_ident ≠ s.main_thread then
      (0, s)
    else
      (1,
        { s with
          sig_list := Function.update s.sig_list p.SIGINT
            { s.sig_list p.SIGINT with tripped := 0 } })
  else (0, s)

/-! ## Sequences of deliveries, and what a handler call may be assumed to do -/

/-- The signals of `arrivals` are delivered one after the other, in that order,
each running `signal_handler` in a process whose `getpid()` is `pid`. -/
def deliveries (p : Platform) (pid : Int) (arrivals : List Nat) (s : State) : State :=
  arrivals.foldl (fun st sig_num => signal_handler p pid sig_num st) s

/-- Calling `func` with `(sig_num, f)` returns normally, whatever the state. -/
def Succeeds (p : Platform) (rt : Runtime) (thread_ident : Int) (f : Obj) (func : Obj)
    (sig_num : Nat) : Prop :=
  ∀ st, ∃ v, (call_object p rt thread_ident func (sig_num : Int) f st).1 = Except.ok v

/-- Calling `func` with `(sig_num, f)` fails with the exception `e`, whatever the
state. -/
def Fails (p : Platform) (rt : Runtime) (thread_ident : Int) (f : Obj) (func : Obj)
    (sig_num : Nat) (e : PyErr) : Prop :=
  ∀ st, (call_object p rt thread_ident func (sig_num : Int) f st).1 = Except.error e

/-- Calling `func` with `(sig_num, f)` leaves `sig_list` and the `tripped`
counter as they are, whatever the state: while the call runs no signal trips and
no handler is registered. -/
def Quiet (p : Platform) (rt : Runtime) (thread_ident : Int) (f : Obj) (func : Obj)
    (sig_num : Nat) : Prop :=
  ∀ st, (call_object p rt thread_ident func (sig_num : Int) f st).2.sig_list = st.sig_list ∧
    (call_object p rt thread_ident func (sig_num : Int) f st).2.tripped = st.tripped

/-- The table `tbl` with the tripped flags of the slots `i, ..., i + k - 1`
cleared. -/
def clear_range (i k : Nat) (tbl : Nat → signalhandler_list) : Nat → signalhandler_list :=
  fun m => if i ≤ m ∧ m < i + k then { tbl m with tripped := 0 } else tbl m

/-- The calls a scan of the slots `i, ..., i + k - 1` of `tbl` makes when nothing
disturbs it: one per slot whose flag is set, in ascending order, each of the
slot's handler with the slot's number. -/
def pending_calls (f : Obj) (tbl : Nat → signalhandler_list) (i k : Nat) : List Call :=
  ((List.range' i k).filter (fun m => decide ((tbl m).tripped ≠ 0))).map
    (fun m => { func := (tbl m).func, sig_num := (m : Int), frame := f })

/-! ## Reachable states -/

/-- One step of the module: any of its entry points runs to completion, on any
thread, in any process, with any arguments. -/
inductive Step (p : Platform) (rt : Runtime) : State → State → Prop
  | signal_signal (s : State) (thread_ident sig_num : Int) (obj : Obj) :
      Step p rt s (signal_signal p thread_ident sig_num obj s).2
  | signal_getsignal (s : State) (sig_num : Int) :
      Step p rt s (signal_getsignal p sig_num s).2
  | signal_handler (s : State) (pid : Int) (sig_num : Nat) :
      1 ≤ sig_num → sig_num < p.NSIG → Step p rt s (signal_handler p pid sig_num s)
  | sigcheck (s : State) (thread_ident : Int) (frame : Obj) :
      Step p rt s (sigcheck p rt thread_ident frame s).state
  | intrcheck (s : State) (thread_ident : Int) :
      Step p rt s (intrcheck p thread_ident s).2

/-- The states the module can be in after `initsignal()` has run on thread
`thread_ident` of process `pid` over the start-up dispositions `disposition`. -/
inductive Reachable (p : Platform) (rt : Runtime) (thread_ident pid : Int)
    (disposition : Nat → Sighandler) : State → Prop
  | boot : Reachable p rt thread_ident pid disposition
      (initsignal p thread_ident pid (static_state disposition))
  | step (s s' : State) : Reachable p rt thread_ident pid disposition s →
      Step p rt s s' → Reachable p rt thread_ident pid disposition s'

/-! ## Concrete platform, runtime and states used by the examples -/

/-- A platform with 32 signals, `SIGINT = 2`, thread support, and `SIGKILL = 9`
and `SIGSTOP = 19` (and every number outside `1..31`) refused by `signal()`. -/
def demo_platform : Platform :=
  { NSIG := 32,
    SIGINT := 2,
    WITH_THREAD := true,
    uncatchable := fun n => decide (n = 0 ∨ n = 9 ∨ n = 19 ∨ 32 ≤ n) }

/-- A runtime with three Python functions and one built-in method:
`funcobject 0` returns `None` and does nothing else; `funcobject 1` raises an
exception; `funcobject 2` calls `signal.signal(7, SIG_IGN)` and returns;
`methodobject 3` is C code during whose execution signal 3 is delivered to the
owner process (pid 100), after which it returns `None`.  Calling anything else
raises `TypeError`. -/
def demo_runtime : Runtime :=
  { call := fun func _ _ =>
      match func with
      | .funcobject 0 => { ops := [], result := Except.ok Obj.None }
      | .funcobject 1 => { ops := [], result := Except.error (PyErr.Exception 1) }
      | .funcobject 2 =>
        { ops := [Op.signal 7 Obj.sig_ign_object], result := Except.ok Obj.None }
      | .methodobject 3 => { ops := [Op.deliver 100 3], result := Except.ok Obj.None }
      | _ => { ops := [], result := Except.error (PyErr.TypeError "call of non-function") } }

/-- The state right after `initsignal()` on thread 1 of process 100, every
signal having started with the default disposition. -/
def demo_boot : State :=
  initsignal demo_platform 1 100 (static_state (fun _ => Sighandler.SIG_DFL))

/-- The main thread registers `obj` for each signal number of `sigs` in turn. -/
def register_all (p : Platform) (thread_ident : Int) (obj : Obj) (sigs : List Int)
    (s : State) : State :=
  sigs.foldl (fun st sig_num => (signal_signal p thread_ident sig_num obj st).2) s

/-- After start-up, `funcobject 0` (which returns normally and does nothing
else) has been registered for the signals 2, 3, 5 and 7. -/
def demo_handlers : State :=
  register_all demo_platform 1 (Obj.funcobject 0) [2, 3, 5, 7] demo_boot

/-- After start-up, `funcobject 1` (which raises an exception) has been
registered for the signals 3 and 5, and `funcobject 0` for signal 7. -/
def demo_failing : State :=
  register_all demo_platform 1 (Obj.funcobject 0) [7]
    (register_all demo_platform 1 (Obj.funcobject 1) [3, 5] demo_boot)

/-- After start-up, `funcobject 2` (which calls `signal.signal(7, SIG_IGN)`) has
been registered for signal 3 and `funcobject 0` for signal 7. -/
def demo_reregister : State :=
  register_all demo_platform 1 (Obj.funcobject 0) [7]
    (register_all demo_platform 1 (Obj.funcobject 2) [3] demo_boot)

/-- After start-up, `funcobject 0` has been registered for signal 3 and
`methodobject 3` (during whose call signal 3 is delivered) for signal 7. -/
def demo_race : State :=
  register_all demo_platform 1 (Obj.methodobject 3) [7]
    (register_all demo_platform 1 (Obj.funcobject 0) [3] demo_boot)

/-- From `demo_race`: signal 7 trips, then the main thread runs `sigcheck`.  The
scan passes slot 3, reaches slot 7 and calls its handler; while that handler
runs, signal 3 is delivered. -/
def demo_race_after : State :=
  (sigcheck demo_platform demo_runtime 1 Obj.NULL
    (deliveries demo_platform 100 [7] demo_race)).state

/-- After start-up, `funcobject 0` has been registered for signal 3,
`methodobject 3` (during whose call signal 3 is delivered) for signal 5, and
`funcobject 1` (which raises an exception) for signal 7. -/
def demo_retrip : State :=
  register_all demo_platform 1 (Obj.funcobject 1) [7]
    (register_all demo_platform 1 (Obj.methodobject 3) [5]
      (register_all demo_platform 1 (Obj.funcobject 0) [3] demo_boot))

/-! ## Notions used for registration, start-up and the polling functions -/

/-- The handler `signal_signal` passes to `signal()` for an accepted object:
`SIG_IGN` and `SIG_DFL` for the two sentinels, `signal_handler` for a
callable. -/
def os_handler (obj : Obj) : Sighandler :=
  if obj = Obj.sig_ign_object then Sighandler.SIG_IGN
  else if obj = Obj.sig_dfl_object then Sighandler.SIG_DFL
  else Sighandler.signal_handler

/-- No call of a handler, whatever the handler and the state, sets the tripped
flag of slot `n`: while handlers run, signal `n` does not trip. -/
def NoTripOf (p : Platform) (rt : Runtime) (thread_ident : Int) (f : Obj) (n : Nat) :
    Prop :=
  ∀ (func : Obj) (m : Int) (st : State), (st.sig_list n).tripped = 0 →
    ((call_object p rt thread_ident func m f st).2.sig_list n).tripped = 0

/-- What the probe `t = signal(i, SIG_IGN)` of `initsignal` finds for signal
`i`. -/
def probe (p : Platform) (i : Nat) (s : State) : Sighandler :=
  (signal p i Sighandler.SIG_IGN s).1

/-- The object `initsignal` records for a probed disposition `t`: `SIG_DFL` and
`SIG_IGN` for those two dispositions, `None` for anything else. -/
def probed_object (t : Sighandler) : Obj :=
  if t = Sighandler.SIG_DFL then Obj.sig_dfl_object
  else if t = Sighandler.SIG_IGN then Obj.sig_ign_object
  else Obj.None

/-- The state `initsignal` has built when it enters its probing loop: the
identities recorded (with thread support) and `sig_list[0].tripped = 0`. -/
def initsignal_start (p : Platform) (thread_ident pid : Int) (s : State) : State :=
  let s0 : State :=
    if p.WITH_THREAD = true then
      { s with main_thread := thread_ident, main_pid := pid }
    else s
  { s0 with
    sig_list := Function.update s0.sig_list 0 { s0.sig_list 0 with tripped := 0 } }

/-! ## Dispositions and handlers in step -/

/-- The table and the kernel agree: for every valid signal number the
disposition is a real one (not the error value `SIG_ERR`), it is `signal_handler`
exactly when the slot holds a callable, and a set tripped flag sits on a slot
that holds a callable. -/
def Installed (p : Platform) (s : State) : Prop :=
  ∀ n, 1 ≤ n → n < p.NSIG →
    s.disposition n ≠ Sighandler.SIG_ERR ∧
      (s.disposition n = Sighandler.signal_handler ↔ is_callable (s.sig_list n).func = true) ∧
      ((s.sig_list n).tripped ≠ 0 → is_callable (s.sig_list n).func = true)

/-- One step of the module in which the kernel runs `signal_handler` for a signal
only when `signal_handler` is that signal's disposition; the other entry points
run on any thread with any arguments. -/
inductive InstalledStep (p : Platform) (rt : Runtime) : State → State → Prop
  | signal_signal (s : State) (thread_ident sig_num : Int) (obj : Obj) :
      InstalledStep p rt s (signal_signal p thread_ident sig_num obj s).2
  | signal_getsignal (s : State) (sig_num : Int) :
      InstalledStep p rt s (signal_getsignal p sig_num s).2
  | signal_handler (s : State) (pid : Int) (sig_num : Nat) :
      1 ≤ sig_num → sig_num < p.NSIG →
      s.disposition sig_num = Sighandler.signal_handler →
      InstalledStep p rt s (signal_handler p pid sig_num s)
  | sigcheck (s : State) (thread_ident : Int) (frame : Obj) :
      InstalledStep p rt s (sigcheck p rt thread_ident frame s).state
  | intrcheck (s : State) (thread_ident : Int) :
      InstalledStep p rt s (intrcheck p thread_ident s).2

/-- The states reached from `initsignal()` (run on thread `thread_ident` of
process `pid` over the zero statics and the start-up dispositions) by steps in
which `signal_handler` runs only where it is installed. -/
inductive ReachableInstalled (p : Platform) (rt : Runtime) (thread_ident pid : Int)
    (disposition : Nat → Sighandler) : State → Prop
  | boot : ReachableInstalled p rt thread_ident pid disposition
      (initsignal p thread_ident pid (static_state disposition))
  | step (s s' : State) : ReachableInstalled p rt thread_ident pid disposition s →
      InstalledStep p rt s s' → ReachableInstalled p rt thread_ident pid disposition s'


/-! # Theorems -/

/-! ## Registration and query (`signal_signal`, `signal_getsignal`) -/

theorem is_callable_not_sentinel {c : Obj} (hc : is_callable c = true) :
    c ≠ Obj.sig_ign_object ∧ c ≠ Obj.sig_dfl_object := by
  cases c <;> simp [is_callable, is_methodobject, is_funcobject,
    is_instancemethodobject] at hc ⊢

theorem is_callable_not_garbage {c : Obj} (hc : is_callable c = true) :
    ¬ (is_methodobject c = false ∧ is_funcobject c = false ∧
      is_instancemethodobject c = false) := by
  cases c <;> simp [is_callable, is_methodobject, is_funcobject,
    is_instancemethodobject] at hc ⊢

/-- C1: for a signal number `n` with `1 <= n < NSIG` and a callable `c`, when
`signal_signal(n, c)` is called on the main thread and the C library's
`signal()` does not answer `SIG_ERR`, the call succeeds and a `signal_getsignal(n)`
right after it returns exactly `c`. -/
theorem C1_register_then_get (p : Platform) (thread_ident n : Int) (c : Obj) (s : State)
    (hn : 1 ≤ n ∧ n < (p.NSIG : Int))
    (hc : is_callable c = true)
    (hmain : p.WITH_THREAD = true → thread_ident = s.main_thread)
    (hos : (signal p n.toNat Sighandler.signal_handler s).1 ≠ Sighandler.SIG_ERR) :
    (∃ old, (signal_signal p thread_ident n c s).1 = Except.ok old) ∧
      (signal_getsignal p n (signal_signal p thread_ident n c s).2).1 = Except.ok c := by
  have h1 : ¬ (p.WITH_THREAD = true ∧ thread_ident ≠ s.main_thread) := by
    rintro ⟨hw, hne⟩
    exact hne (hmain hw)
  have h2 : ¬ (n < 1 ∨ n ≥ (p.NSIG : Int)) := by omega
  obtain ⟨hi, hd⟩ := is_callable_not_sentinel hc
  have hg := is_callable_not_garbage hc
  simp only [signal_signal, signal_signal_install, signal_getsignal, h1, h2, hi, hd, hg,
    if_false, if_neg hos]
  simp

theorem C1_register_then_get_witness :
    ((1 : Int) ≤ 7 ∧ (7 : Int) < (demo_platform.NSIG : Int)) ∧
      is_callable (Obj.funcobject 0) = true ∧
      (signal_getsignal demo_platform 7
        (signal_signal demo_platform 1 7 (Obj.funcobject 0) demo_boot).2).1
        = Except.ok (Obj.funcobject 0) :=
  ⟨by decide, by decide,
    (C1_register_then_get demo_platform 1 7 (Obj.funcobject 0) demo_boot
      (by decide) (by decide) (by decide) (by decide)).2⟩

/-- C2: for an integer `n` with `n < 1` or `n >= NSIG` and any handler argument
`h`, `signal_signal(n, h)` called on the main thread and `signal_getsignal(n)`
both fail with `ValueError`, and both leave the whole state (every slot of
`sig_list`, the `tripped` counter, every disposition) exactly as it was. -/
theorem C2_out_of_range (p : Platform) (thread_ident n : Int) (h : Obj) (s : State)
    (hn : n < 1 ∨ n ≥ (p.NSIG : Int))
    (hmain : p.WITH_THREAD = true → thread_ident = s.main_thread) :
    signal_signal p thread_ident n h s
        = (Except.error (PyErr.ValueError "signal number out of range"), s) ∧
      signal_getsignal p n s
        = (Except.error (PyErr.ValueError "signal number out of range"), s) := by
  have h1 : ¬ (p.WITH_THREAD = true ∧ thread_ident ≠ s.main_thread) := by
    rintro ⟨hw, hne⟩
    exact hne (hmain hw)
  constructor
  · simp only [signal_signal, h1, hn, if_false, if_true]
  · simp only [signal_getsignal, hn, if_true]

theorem C2_out_of_range_witness :
    ((0 : Int) < 1 ∨ (0 : Int) ≥ (demo_platform.NSIG : Int)) ∧
      signal_signal demo_platform 1 0 (Obj.funcobject 0) demo_boot
        = (Except.error (PyErr.ValueError "signal number out of range"), demo_boot) ∧
      signal_getsignal demo_platform 0 demo_boot
        = (Except.error (PyErr.ValueError "signal number out of range"), demo_boot) :=
  ⟨by decide,
    C2_out_of_range demo_platform 1 0 (Obj.funcobject 0) demo_boot (by decide) (by decide)⟩

/-- C3: for a valid signal number `n` and a handler argument `g` that is
neither `SIG_IGN`, `SIG_DFL` nor a callable object, `signal_signal(n, g)` on the
main thread fails with `TypeError` and leaves the whole state as it was; in
particular slot `n` keeps its handler and its tripped flag, and signal `n` its
disposition. -/
theorem C3_garbage_handler (p : Platform) (thread_ident n : Int) (g : Obj) (s : State)
    (hn : 1 ≤ n ∧ n < (p.NSIG : Int))
    (hign : g ≠ Obj.sig_ign_object) (hdfl : g ≠ Obj.sig_dfl_object)
    (hg : is_callable g = false)
    (hmain : p.WITH_THREAD = true → thread_ident = s.main_thread) :
    (∃ msg, signal_signal p thread_ident n g s = (Except.error (PyErr.TypeError msg), s)) ∧
      ((signal_signal p thread_ident n g s).2.sig_list n.toNat).func
        = (s.sig_list n.toNat).func ∧
      ((signal_signal p thread_ident n g s).2.sig_list n.toNat).tripped
        = (s.sig_list n.toNat).tripped ∧
      (signal_signal p thread_ident n g s).2.disposition n.toNat
        = s.disposition n.toNat := by
  have h1 : ¬ (p.WITH_THREAD = true ∧ thread_ident ≠ s.main_thread) := by
    rintro ⟨hw, hne⟩
    exact hne (hmain hw)
  have h2 : ¬ (n < 1 ∨ n ≥ (p.NSIG : Int)) := by omega
  have h3 : is_methodobject g = false ∧ is_funcobject g = false ∧
      is_instancemethodobject g = false := by
    simpa [is_callable, and_assoc] using hg
  have key : signal_signal p thread_ident n g s
      = (Except.error (PyErr.TypeError
          "signal handler must be signal.SIG_IGN, signal.SIG_DFL, or a callable object"), s) := by
    simp only [signal_signal, h1, h2, hign, hdfl, h3, if_false, and_self, if_true]
  refine ⟨⟨_, key⟩, ?_, ?_, ?_⟩ <;> rw [key]

theorem C3_garbage_handler_witness :
    ((1 : Int) ≤ 7 ∧ (7 : Int) < (demo_platform.NSIG : Int)) ∧
      is_callable Obj.None = false ∧
      ∃ msg, signal_signal demo_platform 1 7 Obj.None demo_boot
        = (Except.error (PyErr.TypeError msg), demo_boot) :=
  ⟨by decide, by decide,
    (C3_garbage_handler demo_platform 1 7 Obj.None demo_boot
      (by decide) (by decide) (by decide) (by decide) (by decide)).1⟩

/-- C4, as the code has it: with thread support, `signal_signal` called from a
thread other than the main thread recorded by `initsignal` fails, for every
signal number and handler argument, with `ValueError` ("signal only works in
main thread"), an error of the specification's kind ValueError, and leaves the
whole state (every slot, every disposition) as it was. -/
theorem C4_wrong_thread_ValueError (p : Platform) (thread_ident n : Int) (h : Obj)
    (s : State) (hw : p.WITH_THREAD = true) (hthread : thread_ident ≠ s.main_thread) :
    signal_signal p thread_ident n h s
        = (Except.error (PyErr.ValueError "signal only works in main thread"), s) ∧
      (PyErr.ValueError "signal only works in main thread").kind
        = some ErrorKind.ValueError := by
  constructor
  · simp only [signal_signal, hw, hthread, ne_eq, not_false_eq_true, and_self, if_true]
  · rfl

theorem C4_wrong_thread_ValueError_witness :
    demo_platform.WITH_THREAD = true ∧ (5 : Int) ≠ demo_boot.main_thread ∧
      signal_signal demo_platform 5 7 (Obj.funcobject 0) demo_boot
        = (Except.error (PyErr.ValueError "signal only works in main thread"), demo_boot) :=
  ⟨by decide, by decide,
    (C4_wrong_thread_ValueError demo_platform 5 7 (Obj.funcobject 0) demo_boot
      (by decide) (by decide)).1⟩

/-- C4, as stated, fails: called from thread 5 while the main thread is 1,
`signal_signal(7, f)` does fail, but the error it sets is not of kind
PermissionError. -/
theorem C4_not_PermissionError :
    ¬ ∃ e, (signal_signal demo_platform 5 7 (Obj.funcobject 0) demo_boot).1
        = Except.error e ∧ e.kind = some ErrorKind.PermissionError := by
  rintro ⟨e, he, hk⟩
  have h0 : (signal_signal demo_platform 5 7 (Obj.funcobject 0) demo_boot).1
      = Except.error (PyErr.ValueError "signal only works in main thread") := rfl
  rw [h0] at he
  cases he
  cases hk

/-- C5: for a valid signal number `n`, `signal_getsignal(n)` succeeds whatever
thread calls it (the function never looks at the calling thread), returns the
handler stored in slot `n`, and leaves the whole state (every slot's handler and
tripped flag, the `tripped` counter, every disposition) exactly as it was. -/
theorem C5_getsignal_reads_only (p : Platform) (n : Int) (s : State)
    (hn : 1 ≤ n ∧ n < (p.NSIG : Int)) :
    signal_getsignal p n s = (Except.ok (s.sig_list n.toNat).func, s) := by
  have h2 : ¬ (n < 1 ∨ n ≥ (p.NSIG : Int)) := by omega
  simp only [signal_getsignal, h2, if_false]

theorem C5_getsignal_reads_only_witness :
    ((1 : Int) ≤ 2 ∧ (2 : Int) < (demo_platform.NSIG : Int)) ∧
      signal_getsignal demo_platform 2 demo_boot
        = (Except.ok Obj.default_int_handler_object, demo_boot) :=
  ⟨by decide, C5_getsignal_reads_only demo_platform 2 demo_boot (by decide)⟩

theorem signal_sig_list (p : Platform) (sig : Nat) (func : Sighandler) (s : State) :
    (signal p sig func s).2.sig_list = s.sig_list := by
  unfold signal
  split <;> rfl

theorem signal_tripped (p : Platform) (sig : Nat) (func : Sighandler) (s : State) :
    (signal p sig func s).2.tripped = s.tripped := by
  unfold signal
  split <;> rfl

theorem signal_signal_install_ok {p : Platform} {n : Int} {h : Obj} {func : Sighandler}
    {s : State} {old : Obj} (hs : (signal_signal_install p n h func s).1 = Except.ok old) :
    old = (s.sig_list n.toNat).func ∧
      (signal_signal_install p n h func s).2.sig_list
        = Function.update s.sig_list n.toNat { tripped := 0, func := h } := by
  unfold signal_signal_install at hs ⊢
  dsimp only at hs ⊢
  split_ifs at hs ⊢ with h3
  simp only [signal_sig_list] at hs ⊢
  injection hs with hs
  exact ⟨hs.symm, trivial⟩

/-- What a successful `signal_signal` did: the signal number was in range, the
value returned is the handler the slot held, and the table differs from the old
one in that slot only, which now holds the new handler with a clear flag. -/
theorem signal_signal_ok {p : Platform} {thread_ident n : Int} {h : Obj} {s : State}
    {old : Obj} (hs : (signal_signal p thread_ident n h s).1 = Except.ok old) :
    (1 ≤ n ∧ n < (p.NSIG : Int)) ∧ old = (s.sig_list n.toNat).func ∧
      (signal_signal p thread_ident n h s).2.sig_list
        = Function.update s.sig_list n.toNat { tripped := 0, func := h } := by
  unfold signal_signal at hs ⊢
  split_ifs at hs ⊢ with h1 h2 <;>
    first
    | (exact absurd hs (by simp))
    | (exact ⟨by omega, signal_signal_install_ok hs⟩)

/-- C10: a successful `signal_signal(n, h)` (so: `n` valid, `h` one of `SIG_IGN`,
`SIG_DFL` or a callable, called on the main thread, accepted by the C library)
returns exactly the handler slot `n` held right before the call, which is the
value `signal_getsignal(n)` returns in the state before, and changes the handler
of no slot other than `n`. -/
theorem C10_returns_previous (p : Platform) (thread_ident n : Int) (h : Obj) (s : State)
    (old : Obj) (hs : (signal_signal p thread_ident n h s).1 = Except.ok old) :
    old = (s.sig_list n.toNat).func ∧
      (signal_getsignal p n s).1 = Except.ok old ∧
      ∀ m, m ≠ n.toNat →
        ((signal_signal p thread_ident n h s).2.sig_list m).func = (s.sig_list m).func := by
  obtain ⟨hn, hold, htab⟩ := signal_signal_ok hs
  refine ⟨hold, ?_, ?_⟩
  · have h2 : ¬ (n < 1 ∨ n ≥ (p.NSIG : Int)) := by omega
    simp only [signal_getsignal, h2, if_false, hold]
  · intro m hm
    rw [htab, Function.update_noteq hm]

theorem C10_returns_previous_witness :
    (signal_signal demo_platform 1 2 (Obj.funcobject 0) demo_boot).1
        = Except.ok Obj.default_int_handler_object ∧
      (signal_getsignal demo_platform 2 demo_boot).1
        = Except.ok Obj.default_int_handler_object ∧
      ∀ m, m ≠ (2 : Int).toNat →
        ((signal_signal demo_platform 1 2 (Obj.funcobject 0) demo_boot).2.sig_list m).func
          = (demo_boot.sig_list m).func :=
  ⟨rfl, (C10_returns_previous demo_platform 1 2 (Obj.funcobject 0) demo_boot
    Obj.default_int_handler_object rfl).2⟩

/-! ## The scan of `sigcheck` -/

theorem clear_range_zero (i : Nat) (tbl : Nat → signalhandler_list) :
    clear_range i 0 tbl = tbl := by
  funext m
  simp only [clear_range, Nat.add_zero]
  rw [if_neg (by omega)]

theorem clear_range_succ_of_update (i k : Nat) (tbl : Nat → signalhandler_list) :
    clear_range (i + 1) k (Function.update tbl i { tbl i with tripped := 0 })
      = clear_range i (k + 1) tbl := by
  funext m
  simp only [clear_range]
  by_cases hm : m = i
  · subst hm
    rw [if_neg (by omega), if_pos (by omega), Function.update_same]
  · rw [Function.update_noteq hm]
    by_cases h1 : i + 1 ≤ m ∧ m < i + 1 + k
    · rw [if_pos h1, if_pos (by omega)]
    · rw [if_neg h1, if_neg (by omega)]

theorem clear_range_succ_of_clear (i k : Nat) (tbl : Nat → signalhandler_list)
    (h : (tbl i).tripped = 0) :
    clear_range (i + 1) k tbl = clear_range i (k + 1) tbl := by
  funext m
  simp only [clear_range]
  by_cases hm : m = i
  · subst hm
    rw [if_neg (by omega), if_pos (by omega)]
    cases hx : tbl m with
    | mk t fn =>
      rw [hx] at h
      simp only at h
      simp only [h]
  · by_cases h1 : i + 1 ≤ m ∧ m < i + 1 + k
    · rw [if_pos h1, if_pos (by omega)]
    · rw [if_neg h1, if_neg (by omega)]

theorem pending_calls_succ_set (f : Obj) (tbl : Nat → signalhandler_list) (i k : Nat)
    (h : (tbl i).tripped ≠ 0) :
    pending_calls f tbl i (k + 1)
      = { func := (tbl i).func, sig_num := (i : Int), frame := f }
          :: pending_calls f tbl (i + 1) k := by
  simp [pending_calls, List.range'_succ, List.filter_cons, h]

theorem pending_calls_succ_clear (f : Obj) (tbl : Nat → signalhandler_list) (i k : Nat)
    (h : (tbl i).tripped = 0) :
    pending_calls f tbl i (k + 1) = pending_calls f tbl (i + 1) k := by
  simp [pending_calls, List.range'_succ, List.filter_cons, h]

theorem pending_calls_congr (f : Obj) (tbl tbl' : Nat → signalhandler_list) (i k : Nat)
    (h : ∀ m, i ≤ m → m < i + k → tbl' m = tbl m) :
    pending_calls f tbl' i k = pending_calls f tbl i k := by
  induction k generalizing i with
  | zero => rfl
  | succ k ih =>
    have hi : tbl' i = tbl i := h i (le_refl _) (by omega)
    have ht : pending_calls f tbl' (i + 1) k = pending_calls f tbl (i + 1) k :=
      ih (i + 1) (fun m h1 h2 => h m (by omega) (by omega))
    by_cases hf : (tbl i).tripped ≠ 0
    · rw [pending_calls_succ_set f tbl i k hf,
        pending_calls_succ_set f tbl' i k (by rw [hi]; exact hf), ht, hi]
    · have hf0 : (tbl i).tripped = 0 := not_not.mp hf
      rw [pending_calls_succ_clear f tbl i k hf0,
        pending_calls_succ_clear f tbl' i k (by rw [hi]; exact hf0), ht]

/-- The scan over `k` slots whose pending handlers all return normally and are
quiet makes exactly the pending calls of those slots, clears their flags, and
goes on with the rest of the scan. -/
theorem sigcheck_loop_quiet_prefix (p : Platform) (rt : Runtime) (thread_ident : Int)
    (f : Obj) (fuel : Nat) : ∀ (k i : Nat) (s : State),
    (∀ m, i ≤ m → m < i + k → (s.sig_list m).tripped ≠ 0 →
      Succeeds p rt thread_ident f (s.sig_list m).func m ∧
        Quiet p rt thread_ident f (s.sig_list m).func m) →
    ∃ s', s'.sig_list = clear_range i k s.sig_list ∧ s'.tripped = s.tripped ∧
      sigcheck_loop p rt thread_ident f (k + fuel) i s
        = { sigcheck_loop p rt thread_ident f fuel (i + k) s' with
            calls := pending_calls f s.sig_list i k
              ++ (sigcheck_loop p rt thread_ident f fuel (i + k) s').calls } := by
  intro k
  induction k with
  | zero =>
    intro i s _
    refine ⟨s, (clear_range_zero i s.sig_list).symm, rfl, ?_⟩
    simp [pending_calls]
  | succ k ih =>
    intro i s H
    have hfuel : k + 1 + fuel = (k + fuel) + 1 := by omega
    rw [hfuel]
    by_cases hflag : (s.sig_list i).tripped ≠ 0
    · obtain ⟨hsucc, hquiet⟩ := H i (le_refl _) (by omega) hflag
      obtain ⟨v, hv⟩ := hsucc
        { s with sig_list :=
            Function.update s.sig_list i { s.sig_list i with tripped := 0 } }
      obtain ⟨hq1, hq2⟩ := hquiet
        { s with sig_list :=
            Function.update s.sig_list i { s.sig_list i with tripped := 0 } }
      have hH : ∀ m, i + 1 ≤ m → m < i + 1 + k →
          ((call_object p rt thread_ident (s.sig_list i).func (i : Int) f
            { s with sig_list :=
                Function.update s.sig_list i { s.sig_list i with tripped := 0 } }).2.sig_list
              m).tripped ≠ 0 →
          Succeeds p rt thread_ident f
            ((call_object p rt thread_ident (s.sig_list i).func (i : Int) f
              { s with sig_list :=
                Function.update s.sig_list i { s.sig_list i with tripped := 0 } }).2.sig_list
              m).func m ∧
          Quiet p rt thread_ident f
            ((call_object p rt thread_ident (s.sig_list i).func (i : Int) f
              { s with sig_list :=
                Function.update s.sig_list i { s.sig_list i with tripped := 0 } }).2.sig_list
              m).func m := by
        intro m h1 h2
        rw [hq1]
        simp only
        rw [Function.update_noteq (by omega)]
        exact H m (by omega) (by omega)
      obtain ⟨s', hs1, hs2, hs3⟩ := ih (i + 1) _ hH
      refine ⟨s', ?_, ?_, ?_⟩
      · rw [hs1, hq1]
        exact clear_range_succ_of_update i k s.sig_list
      · rw [hs2, hq2]
      · have hidx : i + (k + 1) = i + 1 + k := by omega
        rw [hidx, pending_calls_succ_set f s.sig_list i k hflag]
        have hc : pending_calls f
            (call_object p rt thread_ident (s.sig_list i).func (i : Int) f
              { s with sig_list :=
                Function.update s.sig_list i { s.sig_list i with tripped := 0 } }).2.sig_list
            (i + 1) k = pending_calls f s.sig_list (i + 1) k := by
          apply pending_calls_congr
          intro m h1 h2
          rw [hq1]
          simp only
          rw [Function.update_noteq (by omega)]
        rw [hc] at hs3
        simp only [sigcheck_loop, hflag, ne_eq, not_false_eq_true, if_true,
          Function.update_same, hv, hs3, List.cons_append]
    · have hflag0 : (s.sig_list i).tripped = 0 := not_not.mp hflag
      obtain ⟨s', hs1, hs2, hs3⟩ :=
        ih (i + 1) s (fun m h1 h2 => H m (by omega) (by omega))
      refine ⟨s', ?_, hs2, ?_⟩
      · rw [hs1]
        exact clear_range_succ_of_clear i k s.sig_list hflag0
      · have hidx : i + (k + 1) = i + 1 + k := by omega
        rw [hidx, pending_calls_succ_clear f s.sig_list i k hflag0]
        simp only [sigcheck_loop, hflag0, ne_eq, not_true_eq_false, if_false, hs3]

theorem pending_calls_bounds (f : Obj) (tbl : Nat → signalhandler_list) (i k : Nat) :
    ∀ c ∈ pending_calls f tbl i k, (i : Int) ≤ c.sig_num ∧ c.sig_num < ((i + k : Nat) : Int) := by
  intro c hc
  simp only [pending_calls, List.mem_map, List.mem_filter, List.mem_range'_1] at hc
  obtain ⟨m, ⟨⟨h1, h2⟩, _⟩, rfl⟩ := hc
  simp only
  omega

/-- Every call the scan makes from slot `i` on is for a signal number at least
`i`, whatever the handlers do. -/
theorem sigcheck_loop_calls_ge (p : Platform) (rt : Runtime) (thread_ident : Int)
    (f : Obj) : ∀ (fuel i : Nat) (s : State),
    ∀ c ∈ (sigcheck_loop p rt thread_ident f fuel i s).calls, (i : Int) ≤ c.sig_num := by
  intro fuel
  induction fuel with
  | zero =>
    intro i s c hc
    simp [sigcheck_loop] at hc
  | succ fuel ih =>
    intro i s c hc
    unfold sigcheck_loop at hc
    split_ifs at hc with hflag
    · dsimp only at hc
      split at hc
      · simp only [List.mem_singleton] at hc
        rw [hc]
      · simp only [List.mem_cons] at hc
        rcases hc with hc | hc
        · rw [hc]
        · have := ih (i + 1) _ c hc
          omega
    · have := ih (i + 1) _ c hc
      omega

/-- The scan at a slot whose flag is set calls that slot's handler with the
slot's number, exactly once. -/
theorem sigcheck_loop_calls_at (p : Platform) (rt : Runtime) (thread_ident : Int)
    (f : Obj) (fuel i : Nat) (s : State) (hflag : (s.sig_list i).tripped ≠ 0) :
    (sigcheck_loop p rt thread_ident f (fuel + 1) i s).calls.filter
        (fun c => decide (c.sig_num = (i : Int)))
      = [{ func := (s.sig_list i).func, sig_num := (i : Int), frame := f }] := by
  unfold sigcheck_loop
  rw [if_pos hflag]
  dsimp only
  split
  · simp [Function.update_same]
  · simp only [Function.update_same, List.filter_cons, decide_True, if_true]
    congr 1
    rw [List.filter_eq_nil_iff]
    intro c hc
    have := sigcheck_loop_calls_ge p rt thread_ident f fuel (i + 1) _ c hc
    simp only [decide_eq_true_eq]
    omega

/-! ## Deliveries -/

theorem int_wrap_of_range (x : Int) (h1 : -2147483648 ≤ x) (h2 : x < 2147483648) :
    int_wrap x = x := by
  unfold int_wrap
  omega

theorem int_wrap_idem (x : Int) : int_wrap (int_wrap x) = int_wrap x := by
  unfold int_wrap
  omega

theorem signal_main_pid (p : Platform) (sig : Nat) (func : Sighandler) (s : State) :
    (signal p sig func s).2.main_pid = s.main_pid := by
  unfold signal
  split <;> rfl

theorem signal_main_thread (p : Platform) (sig : Nat) (func : Sighandler) (s : State) :
    (signal p sig func s).2.main_thread = s.main_thread := by
  unfold signal
  split <;> rfl

theorem signal_handler_main_pid (p : Platform) (pid : Int) (n : Nat) (s : State) :
    (signal_handler p pid n s).main_pid = s.main_pid := by
  unfold signal_handler
  rw [signal_main_pid]
  dsimp only
  split <;> rfl

theorem signal_handler_main_thread (p : Platform) (pid : Int) (n : Nat) (s : State) :
    (signal_handler p pid n s).main_thread = s.main_thread := by
  unfold signal_handler
  rw [signal_main_thread]
  dsimp only
  split <;> rfl

/-- In the owner process `signal_handler(n)` sets the flag of slot `n`, leaves
the rest of the table alone and increments the counter. -/
theorem signal_handler_owner (p : Platform) (pid : Int) (n : Nat) (s : State)
    (howner : p.WITH_THREAD = false ∨ pid = s.main_pid) :
    (signal_handler p pid n s).sig_list
        = Function.update s.sig_list n { s.sig_list n with tripped := 1 } ∧
      (signal_handler p pid n s).tripped = int_wrap (s.tripped + 1) := by
  unfold signal_handler
  rw [signal_sig_list, signal_tripped]
  dsimp only
  rw [if_pos howner]
  exact ⟨rfl, rfl⟩

theorem deliveries_main_thread (p : Platform) (pid : Int) (arrivals : List Nat) :
    ∀ s : State, (deliveries p pid arrivals s).main_thread = s.main_thread := by
  induction arrivals with
  | nil => intro s; rfl
  | cons a rest ih =>
    intro s
    show (deliveries p pid rest (signal_handler p pid a s)).main_thread = _
    rw [ih, signal_handler_main_thread]

/-- After deliveries in the owner process the slots of the delivered signals
have their flag set and every other slot is as before. -/
theorem deliveries_sig_list (p : Platform) (pid : Int) (arrivals : List Nat) :
    ∀ s : State, (p.WITH_THREAD = false ∨ pid = s.main_pid) →
      (deliveries p pid arrivals s).sig_list
        = fun m => if m ∈ arrivals then { s.sig_list m with tripped := 1 }
            else s.sig_list m := by
  induction arrivals with
  | nil =>
    intro s _
    funext m
    simp [deliveries]
  | cons a rest ih =>
    intro s howner
    show (deliveries p pid rest (signal_handler p pid a s)).sig_list = _
    rw [ih _ (by rw [signal_handler_main_pid]; exact howner),
      (signal_handler_owner p pid a s howner).1]
    funext m
    by_cases hma : m = a
    · subst hma
      simp only [Function.update_same, List.mem_cons, true_or, if_true]
      split <;> rfl
    · simp only [Function.update_noteq hma, List.mem_cons, hma, false_or]

/-- After deliveries in the owner process the counter has been incremented once
per delivery, as a C `int`. -/
theorem deliveries_tripped (p : Platform) (pid : Int) (arrivals : List Nat) :
    ∀ s : State, (p.WITH_THREAD = false ∨ pid = s.main_pid) →
      int_wrap s.tripped = s.tripped →
      (deliveries p pid arrivals s).tripped
        = int_wrap (s.tripped + (arrivals.length : Int)) := by
  induction arrivals with
  | nil =>
    intro s _ hr
    simp [deliveries, hr]
  | cons a rest ih =>
    intro s howner hr
    show (deliveries p pid rest (signal_handler p pid a s)).tripped = _
    rw [ih _ (by rw [signal_handler_main_pid]; exact howner)
      (by rw [(signal_handler_owner p pid a s howner).2, int_wrap_idem]),
      (signal_handler_owner p pid a s howner).2]
    simp only [List.length_cons, Nat.cast_add, Nat.cast_one]
    unfold int_wrap
    omega

/-! ## Delivery by `sigcheck` -/

/-- On the main thread with a non-zero counter `sigcheck` runs the scan. -/
theorem sigcheck_scans (p : Platform) (rt : Runtime) (thread_ident : Int) (frame : Obj)
    (s : State) (hcount : s.tripped ≠ 0)
    (hmain : p.WITH_THREAD = true → thread_ident = s.main_thread) :
    sigcheck p rt thread_ident frame s
      = sigcheck_loop p rt thread_ident (frame_arg frame) (p.NSIG - 1) 1 s := by
  have h1 : ¬ (p.WITH_THREAD = true ∧ thread_ident ≠ s.main_thread) := by
    rintro ⟨hw, hne⟩
    exact hne (hmain hw)
  simp only [sigcheck, hcount, h1, if_false]

/-- When the scan is run and reaches a pending slot `n` (the handlers of the
pending slots below `n` return normally and are quiet), the handler of slot `n`
is called exactly once in the pass, with `n` as first argument. -/
theorem sigcheck_calls_once (p : Platform) (rt : Runtime) (thread_ident : Int)
    (frame : Obj) (n : Nat) (s : State)
    (hn : 1 ≤ n ∧ n < p.NSIG) (hflag : (s.sig_list n).tripped ≠ 0)
    (hcount : s.tripped ≠ 0)
    (hmain : p.WITH_THREAD = true → thread_ident = s.main_thread)
    (hlower : ∀ m, 1 ≤ m → m < n → (s.sig_list m).tripped ≠ 0 →
      Succeeds p rt thread_ident (frame_arg frame) (s.sig_list m).func m ∧
        Quiet p rt thread_ident (frame_arg frame) (s.sig_list m).func m) :
    (sigcheck p rt thread_ident frame s).calls.filter
        (fun c => decide (c.sig_num = (n : Int)))
      = [{ func := (s.sig_list n).func, sig_num := (n : Int), frame := frame_arg frame }] := by
  rw [sigcheck_scans p rt thread_ident frame s hcount hmain]
  have hsplit : p.NSIG - 1 = (n - 1) + ((p.NSIG - 1 - n) + 1) := by omega
  rw [hsplit]
  obtain ⟨s2, hs2, _, hloop⟩ := sigcheck_loop_quiet_prefix p rt thread_ident
    (frame_arg frame) ((p.NSIG - 1 - n) + 1) (n - 1) 1 s
    (fun m h1 h2 => hlower m h1 (by omega))
  rw [hloop]
  have h1n : 1 + (n - 1) = n := by omega
  simp only [List.filter_append, h1n]
  have hpre : (pending_calls (frame_arg frame) s.sig_list 1 (n - 1)).filter
      (fun c => decide (c.sig_num = (n : Int))) = [] := by
    rw [List.filter_eq_nil_iff]
    intro c hc
    have := pending_calls_bounds _ _ _ _ c hc
    simp only [decide_eq_true_eq]
    omega
  have hslot : s2.sig_list n = s.sig_list n := by
    rw [hs2]
    simp only [clear_range]
    rw [if_neg (by omega)]
  rw [hpre, List.nil_append,
    sigcheck_loop_calls_at p rt thread_ident (frame_arg frame) _ n s2
      (by rw [hslot]; exact hflag), hslot]

/-- C6, as the code has it: for a valid signal number `n` and `k >= 1`, let
`signal_handler(n)` run `k` times in the owner process with no `sigcheck` in
between, the C `int` counter not wrapping around (it starts non-negative and
stays below `2^31`), and let the handlers of the pending slots below `n` return
normally without touching the table.  Then one `sigcheck` on the main thread
calls the handler of slot `n` exactly once, with `n` as first argument. -/
theorem C6_coalesced_delivery (p : Platform) (rt : Runtime) (thread_ident pid : Int)
    (frame : Obj) (n k : Nat) (s : State)
    (hn : 1 ≤ n ∧ n < p.NSIG) (hk : 1 ≤ k)
    (howner : p.WITH_THREAD = false ∨ pid = s.main_pid)
    (hmain : p.WITH_THREAD = true → thread_ident = s.main_thread)
    (hcount : 0 ≤ s.tripped ∧ s.tripped + (k : Int) < 2147483648)
    (hlower : ∀ m, 1 ≤ m → m < n → (s.sig_list m).tripped ≠ 0 →
      Succeeds p rt thread_ident (frame_arg frame) (s.sig_list m).func m ∧
        Quiet p rt thread_ident (frame_arg frame) (s.sig_list m).func m) :
    (sigcheck p rt thread_ident frame
        (deliveries p pid (List.replicate k n) s)).calls.filter
        (fun c => decide (c.sig_num = (n : Int)))
      = [{ func := (s.sig_list n).func, sig_num := (n : Int), frame := frame_arg frame }] := by
  have htab := deliveries_sig_list p pid (List.replicate k n) s howner
  have hcnt := deliveries_tripped p pid (List.replicate k n) s howner
    (int_wrap_of_range _ (by omega) (by omega))
  rw [List.length_replicate, int_wrap_of_range _ (by omega) (by omega)] at hcnt
  have hmt := deliveries_main_thread p pid (List.replicate k n) s
  have hmem : ∀ m, m ∈ List.replicate k n ↔ m = n := by
    intro m
    rw [List.mem_replicate]
    constructor
    · exact fun h => h.2
    · exact fun h => ⟨by omega, h⟩
  have hslot : (deliveries p pid (List.replicate k n) s).sig_list n
      = { s.sig_list n with tripped := 1 } := by
    rw [htab]
    simp only [(hmem n).2 rfl, if_true]
  have hother : ∀ m, m ≠ n →
      (deliveries p pid (List.replicate k n) s).sig_list m = s.sig_list m := by
    intro m hm
    rw [htab]
    simp only [hmem, hm, if_false]
  have key := sigcheck_calls_once p rt thread_ident frame n
    (deliveries p pid (List.replicate k n) s) hn (by rw [hslot]; simp)
    (by rw [hcnt]; omega) (by rw [hmt]; exact hmain) (by
      intro m h1 h2
      rw [hother m (by omega)]
      exact hlower m h1 h2)
  rw [key, hslot]

theorem C6_coalesced_delivery_witness :
    (sigcheck demo_platform demo_runtime 1 Obj.NULL
        (deliveries demo_platform 100 (List.replicate 5 7)
          (deliveries demo_platform 100 [3] demo_handlers))).calls.filter
        (fun c => decide (c.sig_num = ((7 : Nat) : Int)))
      = [{ func := Obj.funcobject 0, sig_num := 7, frame := Obj.None }] :=
  C6_coalesced_delivery demo_platform demo_runtime 1 100 Obj.NULL 7 5
    (deliveries demo_platform 100 [3] demo_handlers)
    (by decide) (by decide) (by decide) (by decide) (by decide)
    (fun m _ h2 _ => by
      have hm : m = 1 ∨ m = 2 ∨ m = 3 ∨ m = 4 ∨ m = 5 ∨ m = 6 := by omega
      rcases hm with rfl | rfl | rfl | rfl | rfl | rfl <;>
        first
        | exact ⟨fun _ => ⟨Obj.None, rfl⟩, fun _ => ⟨rfl, rfl⟩⟩
        | exact absurd rfl ‹_›)

/-- C6, as stated, fails in two ways.  First: with signal 3 pending, its handler
raising, five trips of signal 7 are followed by a `sigcheck` on the main thread
that stops at signal 3 and does not call the handler of signal 7 at all.
Second: after `2^32` trips of signal 7 and nothing else the `int` counter is
back at zero, and `sigcheck` returns at once, calling nothing. -/
theorem C6_not_always_once :
    (sigcheck demo_platform demo_runtime 1 Obj.NULL
        (deliveries demo_platform 100 (List.replicate 5 7)
          (deliveries demo_platform 100 [3] demo_failing))).calls
        = [{ func := Obj.funcobject 1, sig_num := 3, frame := Obj.None }] ∧
      (sigcheck demo_platform demo_runtime 1 Obj.NULL
        (deliveries demo_platform 100 (List.replicate 4294967296 7)
          demo_handlers)).calls = [] := by
  refine ⟨by decide, ?_⟩
  have h := deliveries_tripped demo_platform 100 (List.replicate 4294967296 7)
    demo_handlers (by decide) (by decide)
  rw [List.length_replicate] at h
  have h0 : demo_handlers.tripped = 0 := by decide
  rw [h0] at h
  have hz : (deliveries demo_platform 100 (List.replicate 4294967296 7)
      demo_handlers).tripped = 0 := by
    rw [h]
    decide
  simp only [sigcheck, hz, if_true]

/-- C7, as the code has it: start from a state with no flag set and a
non-negative counter, let the signals of `arrivals` (valid numbers, any order,
repeats allowed) trip in the owner process without the `int` counter wrapping,
and let the handler of every tripped signal return normally without touching
the table (no further trip, no registration).  Then `sigcheck` on the main
thread calls exactly the handlers of the tripped signals, each once, each with
its own signal number as first argument, in strictly ascending order of signal
number. -/
theorem C7_ascending_order (p : Platform) (rt : Runtime) (thread_ident pid : Int)
    (frame : Obj) (arrivals : List Nat) (s0 : State)
    (hvalid : ∀ n ∈ arrivals, 1 ≤ n ∧ n < p.NSIG)
    (hclear : ∀ m, 1 ≤ m → m < p.NSIG → (s0.sig_list m).tripped = 0)
    (hcount : 0 ≤ s0.tripped ∧ s0.tripped + (arrivals.length : Int) < 2147483648)
    (howner : p.WITH_THREAD = false ∨ pid = s0.main_pid)
    (hmain : p.WITH_THREAD = true → thread_ident = s0.main_thread)
    (hcb : ∀ n ∈ arrivals,
      Succeeds p rt thread_ident (frame_arg frame) (s0.sig_list n).func n ∧
        Quiet p rt thread_ident (frame_arg frame) (s0.sig_list n).func n) :
    (sigcheck p rt thread_ident frame (deliveries p pid arrivals s0)).calls
        = ((List.range' 1 (p.NSIG - 1)).filter (fun m => decide (m ∈ arrivals))).map
            (fun m => { func := (s0.sig_list m).func, sig_num := (m : Int),
                        frame := frame_arg frame }) ∧
      ((sigcheck p rt thread_ident frame (deliveries p pid arrivals s0)).calls.map
        (fun c => c.sig_num)).Pairwise (fun a b => a < b) ∧
      (∀ n : Nat, n ∈ arrivals ↔
        ∃ c ∈ (sigcheck p rt thread_ident frame (deliveries p pid arrivals s0)).calls,
          c.sig_num = (n : Int)) := by
  have htab := deliveries_sig_list p pid arrivals s0 howner
  have hcnt := deliveries_tripped p pid arrivals s0 howner
    (int_wrap_of_range _ (by omega) (by omega))
  rw [int_wrap_of_range _ (by omega) (by omega)] at hcnt
  have hmt := deliveries_main_thread p pid arrivals s0
  have hflag : ∀ m, 1 ≤ m → m < p.NSIG →
      (((deliveries p pid arrivals s0).sig_list m).tripped ≠ 0 ↔ m ∈ arrivals) := by
    intro m h1 h2
    rw [htab]
    by_cases hm : m ∈ arrivals
    · simp [hm]
    · simp [hm, hclear m h1 h2]
  have hfunc : ∀ m, ((deliveries p pid arrivals s0).sig_list m).func
      = (s0.sig_list m).func := by
    intro m
    rw [htab]
    dsimp only
    split <;> rfl
  have hpend : pending_calls (frame_arg frame) (deliveries p pid arrivals s0).sig_list 1
      (p.NSIG - 1)
      = ((List.range' 1 (p.NSIG - 1)).filter (fun m => decide (m ∈ arrivals))).map
          (fun m => { func := (s0.sig_list m).func, sig_num := (m : Int),
                      frame := frame_arg frame }) := by
    unfold pending_calls
    have hfilter : (List.range' 1 (p.NSIG - 1)).filter
        (fun m => decide (((deliveries p pid arrivals s0).sig_list m).tripped ≠ 0))
        = (List.range' 1 (p.NSIG - 1)).filter (fun m => decide (m ∈ arrivals)) := by
      apply List.filter_congr
      intro m hm
      rw [List.mem_range'_1] at hm
      rw [decide_eq_decide]
      exact hflag m hm.1 (by omega)
    rw [hfilter]
    apply List.map_congr_left
    intro m _
    rw [hfunc]
  have hcalls : (sigcheck p rt thread_ident frame (deliveries p pid arrivals s0)).calls
      = ((List.range' 1 (p.NSIG - 1)).filter (fun m => decide (m ∈ arrivals))).map
          (fun m => { func := (s0.sig_list m).func, sig_num := (m : Int),
                      frame := frame_arg frame }) := by
    by_cases hz : (deliveries p pid arrivals s0).tripped = 0
    · have hnil : arrivals = [] := by
        rw [hcnt] at hz
        have : (arrivals.length : Int) = 0 := by omega
        exact List.length_eq_zero.mp (by exact_mod_cast this)
      subst hnil
      simp [sigcheck, hz]
    · rw [sigcheck_scans p rt thread_ident frame _ hz (by rw [hmt]; exact hmain)]
      obtain ⟨s2, _, _, hloop⟩ := sigcheck_loop_quiet_prefix p rt thread_ident
        (frame_arg frame) 0 (p.NSIG - 1) 1 (deliveries p pid arrivals s0) (by
          intro m h1 h2 h3
          rw [hfunc]
          exact hcb m ((hflag m h1 (by omega)).1 h3))
      rw [Nat.add_zero] at hloop
      rw [hloop, ← hpend]
      simp [sigcheck_loop]
  refine ⟨hcalls, ?_, ?_⟩
  · rw [hcalls, List.map_map]
    apply List.Pairwise.map (R := fun a b : Nat => a < b)
    · intro a b hab
      simp only [Function.comp]
      exact_mod_cast hab
    · exact List.Pairwise.sublist (List.filter_sublist _) (List.pairwise_lt_range' 1 (p.NSIG - 1))
  · intro n
    rw [hcalls]
    simp only [List.mem_map, List.mem_filter, List.mem_range'_1, decide_eq_true_eq]
    constructor
    · intro hn
      have := hvalid n hn
      exact ⟨_, ⟨n, ⟨⟨this.1, by omega⟩, hn⟩, rfl⟩, rfl⟩
    · rintro ⟨c, ⟨m, ⟨_, hm⟩, rfl⟩, hc⟩
      simp only at hc
      have : m = n := by exact_mod_cast hc
      rw [← this]
      exact hm

theorem C7_ascending_order_witness :
    (sigcheck demo_platform demo_runtime 1 Obj.NULL
        (deliveries demo_platform 100 [3, 7, 2] demo_handlers)).calls
      = [{ func := Obj.funcobject 0, sig_num := 2, frame := Obj.None },
         { func := Obj.funcobject 0, sig_num := 3, frame := Obj.None },
         { func := Obj.funcobject 0, sig_num := 7, frame := Obj.None }] :=
  (C7_ascending_order demo_platform demo_runtime 1 100 Obj.NULL [3, 7, 2] demo_handlers
    (by decide) (by decide) (by decide) (by decide) (by decide)
    (fun n hn => by
      have hm : n = 3 ∨ n = 7 ∨ n = 2 := by simpa using hn
      rcases hm with rfl | rfl | rfl <;>
        exact ⟨fun _ => ⟨Obj.None, rfl⟩, fun _ => ⟨rfl, rfl⟩⟩)).1

/-- C7, as stated, fails: signals 3 and 7 are tripped, every handler called
returns normally and no signal trips during the pass, yet the handler of signal
7 is not called, because the handler of signal 3 registers `SIG_IGN` for signal
7 and that registration discards the pending trip. -/
theorem C7_registration_drops_trip :
    ((deliveries demo_platform 100 [7, 3] demo_reregister).sig_list 3).tripped = 1 ∧
      ((deliveries demo_platform 100 [7, 3] demo_reregister).sig_list 7).tripped = 1 ∧
      (demo_runtime.call (Obj.funcobject 2) 3 Obj.None).ops
        = [Op.signal 7 Obj.sig_ign_object] ∧
      (sigcheck demo_platform demo_runtime 1 Obj.NULL
        (deliveries demo_platform 100 [7, 3] demo_reregister)).ret = 0 ∧
      (sigcheck demo_platform demo_runtime 1 Obj.NULL
        (deliveries demo_platform 100 [7, 3] demo_reregister)).calls
        = [{ func := Obj.funcobject 2, sig_num := 3, frame := Obj.None }] := by
  decide

/-! ## A failing handler -/

theorem signal_signal_install_main_thread (p : Platform) (n : Int) (h : Obj)
    (func : Sighandler) (s : State) :
    (signal_signal_install p n h func s).2.main_thread = s.main_thread := by
  unfold signal_signal_install
  dsimp only
  split <;> simp only [signal_main_thread]

theorem signal_signal_main_thread (p : Platform) (thread_ident n : Int) (h : Obj)
    (s : State) : (signal_signal p thread_ident n h s).2.main_thread = s.main_thread := by
  unfold signal_signal
  split_ifs <;> first | rfl | exact signal_signal_install_main_thread _ _ _ _ _

theorem signal_getsignal_state (p : Platform) (n : Int) (s : State) :
    (signal_getsignal p n s).2 = s := by
  unfold signal_getsignal
  split <;> rfl

theorem run_op_main_thread (p : Platform) (thread_ident : Int) (s : State) (op : Op) :
    (run_op p thread_ident s op).main_thread = s.main_thread := by
  cases op with
  | signal n obj => exact signal_signal_main_thread _ _ _ _ _
  | getsignal n => simp only [run_op, signal_getsignal_state]
  | deliver pid n =>
    simp only [run_op, kernel_deliver]
    split
    · exact signal_handler_main_thread _ _ _ _
    · rfl

theorem run_ops_main_thread (p : Platform) (thread_ident : Int) (ops : List Op) :
    ∀ s : State, (ops.foldl (run_op p thread_ident) s).main_thread = s.main_thread := by
  induction ops with
  | nil => intro s; rfl
  | cons op rest ih =>
    intro s
    rw [List.foldl_cons, ih, run_op_main_thread]

/-- No call of a handler changes the recorded main thread. -/
theorem call_object_main_thread (p : Platform) (rt : Runtime) (thread_ident : Int)
    (func : Obj) (sig_num : Int) (f : Obj) (s : State) :
    (call_object p rt thread_ident func sig_num f s).2.main_thread = s.main_thread := by
  unfold call_object
  split
  · rfl
  · exact run_ops_main_thread _ _ _ _

/-- The scan at a pending slot whose handler fails stops there: it returns 1 with
the handler's exception set, having called that handler only. -/
theorem sigcheck_loop_fail (p : Platform) (rt : Runtime) (thread_ident : Int)
    (f : Obj) (fuel i : Nat) (s : State) (e : PyErr)
    (hflag : (s.sig_list i).tripped ≠ 0)
    (hfail : Fails p rt thread_ident f (s.sig_list i).func i e) :
    sigcheck_loop p rt thread_ident f (fuel + 1) i s
      = { ret := 1, err := some e,
          calls := [{ func := (s.sig_list i).func, sig_num := (i : Int), frame := f }],
          state := (call_object p rt thread_ident (s.sig_list i).func (i : Int) f
            { s with sig_list :=
                Function.update s.sig_list i { s.sig_list i with tripped := 0 } }).2 } := by
  have he := hfail
    { s with sig_list := Function.update s.sig_list i { s.sig_list i with tripped := 0 } }
  simp only [sigcheck_loop, hflag, ne_eq, not_false_eq_true, if_true, Function.update_same, he]

/-- The scan never changes the recorded main thread. -/
theorem sigcheck_loop_main_thread (p : Platform) (rt : Runtime) (thread_ident : Int)
    (f : Obj) : ∀ (fuel i : Nat) (s : State),
    (sigcheck_loop p rt thread_ident f fuel i s).state.main_thread = s.main_thread := by
  intro fuel
  induction fuel with
  | zero => intro i s; rfl
  | succ fuel ih =>
    intro i s
    unfold sigcheck_loop
    split_ifs with hflag
    · dsimp only
      split
      · simp only [call_object_main_thread]
      · simp only [ih, call_object_main_thread]
    · exact ih (i + 1) s

theorem sigcheck_main_thread (p : Platform) (rt : Runtime) (thread_ident : Int)
    (frame : Obj) (s : State) :
    (sigcheck p rt thread_ident frame s).state.main_thread = s.main_thread := by
  unfold sigcheck
  split_ifs
  · rfl
  · rfl
  · exact sigcheck_loop_main_thread _ _ _ _ _ _ _

theorem clear_range_snoc (i : Nat) (tbl : Nat → signalhandler_list) (hi : 1 ≤ i) :
    Function.update (clear_range 1 (i - 1) tbl) i
        { clear_range 1 (i - 1) tbl i with tripped := 0 }
      = clear_range 1 i tbl := by
  funext m
  by_cases hm : m = i
  · subst hm
    rw [Function.update_same]
    simp only [clear_range]
    rw [if_neg (by omega), if_pos (by omega)]
  · rw [Function.update_noteq hm]
    simp only [clear_range]
    by_cases h1 : 1 ≤ m ∧ m < 1 + (i - 1)
    · rw [if_pos h1, if_pos (by omega)]
    · rw [if_neg h1, if_neg (by omega)]

/-- A pass of `sigcheck` on the main thread in which slot `i` is the lowest
pending slot whose handler fails, every handler called being quiet: the pass
returns 1 with that handler's exception set, has called the pending handlers up
to `i` in ascending order and nothing above `i`, has cleared the flags of the
slots `1..i` only, and has left the counter as it was. -/
theorem sigcheck_first_failure (p : Platform) (rt : Runtime) (thread_ident : Int)
    (frame : Obj) (i : Nat) (e : PyErr) (s : State)
    (hi : 1 ≤ i ∧ i < p.NSIG) (hflag : (s.sig_list i).tripped ≠ 0)
    (hcount : s.tripped ≠ 0)
    (hmain : p.WITH_THREAD = true → thread_ident = s.main_thread)
    (hlow : ∀ m, 1 ≤ m → m < i → (s.sig_list m).tripped ≠ 0 →
      Succeeds p rt thread_ident (frame_arg frame) (s.sig_list m).func m ∧
        Quiet p rt thread_ident (frame_arg frame) (s.sig_list m).func m)
    (hfail : Fails p rt thread_ident (frame_arg frame) (s.sig_list i).func i e)
    (hquiet : Quiet p rt thread_ident (frame_arg frame) (s.sig_list i).func i) :
    (sigcheck p rt thread_ident frame s).ret = 1 ∧
      (sigcheck p rt thread_ident frame s).err = some e ∧
      (sigcheck p rt thread_ident frame s).calls
        = pending_calls (frame_arg frame) s.sig_list 1 (i - 1)
            ++ [{ func := (s.sig_list i).func, sig_num := (i : Int),
                  frame := frame_arg frame }] ∧
      (sigcheck p rt thread_ident frame s).state.sig_list = clear_range 1 i s.sig_list ∧
      (sigcheck p rt thread_ident frame s).state.tripped = s.tripped := by
  rw [sigcheck_scans p rt thread_ident frame s hcount hmain]
  have hsplit : p.NSIG - 1 = (i - 1) + ((p.NSIG - 1 - i) + 1) := by omega
  rw [hsplit]
  obtain ⟨s2, hs2, hc2, hloop⟩ := sigcheck_loop_quiet_prefix p rt thread_ident
    (frame_arg frame) ((p.NSIG - 1 - i) + 1) (i - 1) 1 s
    (fun m h1 h2 => hlow m h1 (by omega))
  have h1i : 1 + (i - 1) = i := by omega
  rw [h1i] at hloop
  have hslot : s2.sig_list i = s.sig_list i := by
    rw [hs2]
    simp only [clear_range]
    rw [if_neg (by omega)]
  have hstep := sigcheck_loop_fail p rt thread_ident (frame_arg frame) (p.NSIG - 1 - i) i
    s2 e (by rw [hslot]; exact hflag) (by rw [hslot]; exact hfail)
  rw [hloop, hstep]
  have hq := hquiet
    { s2 with sig_list := Function.update s2.sig_list i { s2.sig_list i with tripped := 0 } }
  rw [hslot] at hq ⊢
  refine ⟨rfl, rfl, rfl, ?_, ?_⟩
  · dsimp only
    rw [hq.1]
    dsimp only
    rw [hs2]
    have := clear_range_snoc i s.sig_list hi.1
    simp only [clear_range] at this ⊢
    rw [if_neg (by omega)] at this
    exact this
  · dsimp only
    rw [hq.2]
    exact hc2

/-- C8, as the code has it: let `i < j` be valid signal numbers, both pending,
with a non-zero counter; let `i` be the lowest pending signal whose handler
fails (the pending handlers below `i` return normally), let the pending
handlers strictly between `i` and `j` return normally too, and let all these
handlers leave the table alone.  Then `sigcheck` on the main thread returns 1
with the exception of `i`'s handler set and without calling `j`'s handler, the
flag of slot `j` is still set afterwards, and the next `sigcheck` on the main
thread, no signal tripping in between, calls `j`'s handler exactly once. -/
theorem C8_failure_keeps_later_pending (p : Platform) (rt : Runtime) (thread_ident : Int)
    (frame : Obj) (i j : Nat) (e : PyErr) (s : State)
    (hi : 1 ≤ i) (hij : i < j) (hj : j < p.NSIG)
    (hpi : (s.sig_list i).tripped ≠ 0) (hpj : (s.sig_list j).tripped ≠ 0)
    (hcount : s.tripped ≠ 0)
    (hmain : p.WITH_THREAD = true → thread_ident = s.main_thread)
    (hlow : ∀ m, 1 ≤ m → m < i → (s.sig_list m).tripped ≠ 0 →
      Succeeds p rt thread_ident (frame_arg frame) (s.sig_list m).func m ∧
        Quiet p rt thread_ident (frame_arg frame) (s.sig_list m).func m)
    (hfail : Fails p rt thread_ident (frame_arg frame) (s.sig_list i).func i e)
    (hquiet : Quiet p rt thread_ident (frame_arg frame) (s.sig_list i).func i)
    (hmid : ∀ m, i < m → m < j → (s.sig_list m).tripped ≠ 0 →
      Succeeds p rt thread_ident (frame_arg frame) (s.sig_list m).func m ∧
        Quiet p rt thread_ident (frame_arg frame) (s.sig_list m).func m) :
    (sigcheck p rt thread_ident frame s).ret = 1 ∧
      (sigcheck p rt thread_ident frame s).err = some e ∧
      (∀ c ∈ (sigcheck p rt thread_ident frame s).calls, c.sig_num ≠ (j : Int)) ∧
      ((sigcheck p rt thread_ident frame s).state.sig_list j).tripped ≠ 0 ∧
      (sigcheck p rt thread_ident frame
          (sigcheck p rt thread_ident frame s).state).calls.filter
          (fun c => decide (c.sig_num = (j : Int)))
        = [{ func := (s.sig_list j).func, sig_num := (j : Int),
             frame := frame_arg frame }] := by
  obtain ⟨hret, herr, hcalls, htab, hcnt⟩ := sigcheck_first_failure p rt thread_ident
    frame i e s ⟨hi, by omega⟩ hpi hcount hmain hlow hfail hquiet
  have hslot : ∀ m, i < m →
      (sigcheck p rt thread_ident frame s).state.sig_list m = s.sig_list m := by
    intro m hm
    rw [htab]
    simp only [clear_range]
    rw [if_neg (by omega)]
  have hcleared : ∀ m, 1 ≤ m → m ≤ i →
      ((sigcheck p rt thread_ident frame s).state.sig_list m).tripped = 0 := by
    intro m h1 h2
    rw [htab]
    simp only [clear_range]
    rw [if_pos (by omega)]
  refine ⟨hret, herr, ?_, ?_, ?_⟩
  · intro c hc
    rw [hcalls, List.mem_append, List.mem_singleton] at hc
    rcases hc with hc | hc
    · have := pending_calls_bounds _ _ _ _ c hc
      omega
    · rw [hc]
      simp only
      omega
  · rw [hslot j hij]
    exact hpj
  · have key := sigcheck_calls_once p rt thread_ident frame j
      (sigcheck p rt thread_ident frame s).state ⟨by omega, hj⟩
      (by rw [hslot j hij]; exact hpj) (by rw [hcnt]; exact hcount)
      (by rw [sigcheck_main_thread]; exact hmain) (by
        intro m h1 h2 h3
        by_cases hm : m ≤ i
        · exact absurd (hcleared m h1 hm) h3
        · rw [hslot m (by omega)] at h3 ⊢
          exact hmid m (by omega) h2 h3)
    rw [key, hslot j hij]

theorem C8_failure_keeps_later_pending_witness :
    (sigcheck demo_platform demo_runtime 1 Obj.NULL
        (deliveries demo_platform 100 [7, 5, 3]
          (register_all demo_platform 1 (Obj.funcobject 1) [3] demo_handlers))).ret = 1 ∧
      (sigcheck demo_platform demo_runtime 1 Obj.NULL
        (deliveries demo_platform 100 [7, 5, 3]
          (register_all demo_platform 1 (Obj.funcobject 1) [3] demo_handlers))).err
        = some (PyErr.Exception 1) ∧
      (sigcheck demo_platform demo_runtime 1 Obj.NULL
          (sigcheck demo_platform demo_runtime 1 Obj.NULL
            (deliveries demo_platform 100 [7, 5, 3]
              (register_all demo_platform 1 (Obj.funcobject 1) [3]
                demo_handlers))).state).calls.filter
          (fun c => decide (c.sig_num = ((7 : Nat) : Int)))
        = [{ func := Obj.funcobject 0, sig_num := 7, frame := Obj.None }] :=
  have h := C8_failure_keeps_later_pending demo_platform demo_runtime 1 Obj.NULL 3 7
    (PyErr.Exception 1)
    (deliveries demo_platform 100 [7, 5, 3]
      (register_all demo_platform 1 (Obj.funcobject 1) [3] demo_handlers))
    (by decide) (by decide) (by decide) (by decide) (by decide) (by decide) (by decide)
    (fun m _ h2 h3 => by
      have hm : m = 1 ∨ m = 2 := by omega
      rcases hm with rfl | rfl <;> exact absurd rfl h3)
    (fun _ => rfl) (fun _ => ⟨rfl, rfl⟩)
    (fun m h1 h2 h3 => by
      have hm : m = 4 ∨ m = 5 ∨ m = 6 := by omega
      rcases hm with rfl | rfl | rfl <;>
        first
        | exact ⟨fun _ => ⟨Obj.None, rfl⟩, fun _ => ⟨rfl, rfl⟩⟩
        | exact absurd rfl h3)
  ⟨h.1, h.2.1, h.2.2.2.2⟩

/-- C8, as stated, fails: signals 3, 5 and 7 are pending and the handlers of 3
and 5 both raise.  Signal 3 is the lowest pending signal whose handler fails;
the first `sigcheck` returns 1 having called the handler of 3 only, and slot 7
is still pending.  But the next `sigcheck` stops at signal 5: it returns 1
having called the handler of 5 only, not the handler of 7. -/
theorem C8_next_pass_may_stop_earlier :
    (sigcheck demo_platform demo_runtime 1 Obj.NULL
        (deliveries demo_platform 100 [3, 5, 7] demo_failing)).ret = 1 ∧
      (sigcheck demo_platform demo_runtime 1 Obj.NULL
        (deliveries demo_platform 100 [3, 5, 7] demo_failing)).calls
        = [{ func := Obj.funcobject 1, sig_num := 3, frame := Obj.None }] ∧
      ((sigcheck demo_platform demo_runtime 1 Obj.NULL
        (deliveries demo_platform 100 [3, 5, 7] demo_failing)).state.sig_list 7).tripped
        = 1 ∧
      (sigcheck demo_platform demo_runtime 1 Obj.NULL
        (sigcheck demo_platform demo_runtime 1 Obj.NULL
          (deliveries demo_platform 100 [3, 5, 7] demo_failing)).state).ret = 1 ∧
      (sigcheck demo_platform demo_runtime 1 Obj.NULL
        (sigcheck demo_platform demo_runtime 1 Obj.NULL
          (deliveries demo_platform 100 [3, 5, 7] demo_failing)).state).calls
        = [{ func := Obj.funcobject 1, sig_num := 5, frame := Obj.None }] := by
  decide

/-! ## The counter as a fast-path test -/

theorem reachable_deliveries (p : Platform) (rt : Runtime) (thread_ident pid pid' : Int)
    (disposition : Nat → Sighandler) (arrivals : List Nat)
    (hvalid : ∀ n ∈ arrivals, 1 ≤ n ∧ n < p.NSIG) :
    ∀ s : State, Reachable p rt thread_ident pid disposition s →
      Reachable p rt thread_ident pid disposition (deliveries p pid' arrivals s) := by
  induction arrivals with
  | nil => intro s hs; exact hs
  | cons a rest ih =>
    intro s hs
    have ha := hvalid a (List.mem_cons_self a rest)
    exact ih (fun n hn => hvalid n (List.mem_cons_of_mem a hn)) _
      (Reachable.step _ _ hs (Step.signal_handler s pid' a ha.1 ha.2))

theorem reachable_register_all (p : Platform) (rt : Runtime) (thread_ident pid tid : Int)
    (disposition : Nat → Sighandler) (obj : Obj) (sigs : List Int) :
    ∀ s : State, Reachable p rt thread_ident pid disposition s →
      Reachable p rt thread_ident pid disposition (register_all p tid obj sigs s) := by
  induction sigs with
  | nil => intro s hs; exact hs
  | cons a rest ih =>
    intro s hs
    exact ih _ (Reachable.step _ _ hs (Step.signal_signal s tid a obj))

/-- C9 fails on the code.  First run: handlers are registered for signals 3 and
7, signal 7 trips, and `sigcheck` runs on the main thread; while the handler of
7 is running, signal 3 (a slot the scan has already passed) is delivered.  The
pass ends with `tripped = 0`, so the state reached has the flag of slot 3 set
and a zero counter, and the next `sigcheck` returns 0 at once without calling
the handler of signal 3.  Second run: after `2^32` deliveries of signal 7 with no
`sigcheck` in between the `int` counter has wrapped to zero while the flag of
slot 7 is set. -/
theorem C9_flag_set_counter_zero :
    (Reachable demo_platform demo_runtime 1 100 (fun _ => Sighandler.SIG_DFL)
        demo_race_after ∧
      (demo_race_after.sig_list 3).tripped = 1 ∧
      demo_race_after.tripped = 0 ∧
      (sigcheck demo_platform demo_runtime 1 Obj.NULL demo_race_after).ret = 0 ∧
      (sigcheck demo_platform demo_runtime 1 Obj.NULL demo_race_after).calls = []) ∧
    (Reachable demo_platform demo_runtime 1 100 (fun _ => Sighandler.SIG_DFL)
        (deliveries demo_platform 100 (List.replicate 4294967296 7) demo_handlers) ∧
      ((deliveries demo_platform 100 (List.replicate 4294967296 7)
        demo_handlers).sig_list 7).tripped = 1 ∧
      (deliveries demo_platform 100 (List.replicate 4294967296 7)
        demo_handlers).tripped = 0) := by
  refine ⟨⟨?_, by decide, by decide, by decide, by decide⟩, ?_, ?_, ?_⟩
  · have h0 : Reachable demo_platform demo_runtime 1 100 (fun _ => Sighandler.SIG_DFL)
        demo_boot := Reachable.boot
    have h1 := reachable_register_all demo_platform demo_runtime 1 100 1
      (fun _ => Sighandler.SIG_DFL) (Obj.funcobject 0) [3] _ h0
    have h2 := reachable_register_all demo_platform demo_runtime 1 100 1
      (fun _ => Sighandler.SIG_DFL) (Obj.methodobject 3) [7] _ h1
    have h3 := reachable_deliveries demo_platform demo_runtime 1 100 100
      (fun _ => Sighandler.SIG_DFL) [7] (by decide) _ h2
    exact Reachable.step _ _ h3 (Step.sigcheck _ 1 Obj.NULL)
  · have h0 : Reachable demo_platform demo_runtime 1 100 (fun _ => Sighandler.SIG_DFL)
        demo_boot := Reachable.boot
    have h1 := reachable_register_all demo_platform demo_runtime 1 100 1
      (fun _ => Sighandler.SIG_DFL) (Obj.funcobject 0) [2, 3, 5, 7] _ h0
    exact reachable_deliveries demo_platform demo_runtime 1 100 100
      (fun _ => Sighandler.SIG_DFL) (List.replicate 4294967296 7)
      (fun n hn => by
        rw [List.mem_replicate] at hn
        rw [hn.2]
        decide) _ h1
  · rw [deliveries_sig_list demo_platform 100 (List.replicate 4294967296 7)
      demo_handlers (by decide)]
    have hmem : 7 ∈ List.replicate 4294967296 7 := by
      rw [List.mem_replicate]
      exact ⟨by decide, rfl⟩
    simp only [hmem, if_true]
  · have h := deliveries_tripped demo_platform 100 (List.replicate 4294967296 7)
      demo_handlers (by decide) (by decide)
    rw [List.length_replicate] at h
    have h0 : demo_handlers.tripped = 0 := by decide
    rw [h, h0]
    decide


/-! ## Registration: the flag and the C library's answer -/

theorem signal_disposition_other (p : Platform) (sig : Nat) (func : Sighandler) (s : State)
    (m : Nat) (hm : m ≠ sig) : (signal p sig func s).2.disposition m = s.disposition m := by
  unfold signal
  split
  · rfl
  · exact Function.update_noteq hm _ _

/-- C12: for a valid signal number `n` and an accepted handler `h` (`SIG_IGN`,
`SIG_DFL` or a callable), `signal_signal(n, h)` called on the main thread fails
with `RuntimeError` exactly when the C library's `signal()`, called with the
handler chosen for `h`, returns `SIG_ERR`; the failure is the result of this very
call, and then slot `n` (its handler and its tripped flag, indeed the whole of
`sig_list` and the counter) is as it was. -/
theorem C12_RuntimeError_iff_SIG_ERR (p : Platform) (thread_ident n : Int) (h : Obj)
    (s : State) (hn : 1 ≤ n ∧ n < (p.NSIG : Int))
    (hh : h = Obj.sig_ign_object ∨ h = Obj.sig_dfl_object ∨ is_callable h = true)
    (hmain : p.WITH_THREAD = true → thread_ident = s.main_thread) :
    ((signal_signal p thread_ident n h s).1 = Except.error PyErr.RuntimeError ↔
        (signal p n.toNat (os_handler h) s).1 = Sighandler.SIG_ERR) ∧
      ((signal p n.toNat (os_handler h) s).1 = Sighandler.SIG_ERR →
        (signal_signal p thread_ident n h s).1 = Except.error PyErr.RuntimeError ∧
        (signal_signal p thread_ident n h s).2.sig_list = s.sig_list ∧
        (signal_signal p thread_ident n h s).2.tripped = s.tripped) := by
  have h1 : ¬ (p.WITH_THREAD = true ∧ thread_ident ≠ s.main_thread) := by
    rintro ⟨hw, hne⟩
    exact hne (hmain hw)
  have h2 : ¬ (n < 1 ∨ n ≥ (p.NSIG : Int)) := by omega
  have key : signal_signal p thread_ident n h s
      = signal_signal_install p n h (os_handler h) s := by
    rcases hh with rfl | rfl | hc
    · simp [signal_signal, h1, h2, os_handler]
    · simp [signal_signal, h1, h2, os_handler]
    · obtain ⟨hi, hd⟩ := is_callable_not_sentinel hc
      have hg := is_callable_not_garbage hc
      simp only [signal_signal, h1, h2, hi, hd, hg, if_false, os_handler]
  rw [key]
  unfold signal_signal_install
  dsimp only
  by_cases herr : (signal p n.toNat (os_handler h) s).1 = Sighandler.SIG_ERR
  · simp only [herr, if_true, true_and, signal_sig_list, signal_tripped, implies_true,
      and_self]
  · simp only [herr, if_false, false_implies, and_true, iff_false]
    intro hcontra
    cases hcontra

theorem C12_RuntimeError_iff_SIG_ERR_witness :
    ((1 : Int) ≤ 9 ∧ (9 : Int) < (demo_platform.NSIG : Int)) ∧
      (signal demo_platform (9 : Int).toNat (os_handler (Obj.funcobject 0)) demo_boot).1
        = Sighandler.SIG_ERR ∧
      (signal_signal demo_platform 1 9 (Obj.funcobject 0) demo_boot).1
        = Except.error PyErr.RuntimeError ∧
      (signal_signal demo_platform 1 9 (Obj.funcobject 0) demo_boot).2.sig_list
        = demo_boot.sig_list :=
  have h := C12_RuntimeError_iff_SIG_ERR demo_platform 1 9 (Obj.funcobject 0) demo_boot
    (by decide) (Or.inr (Or.inr (by decide))) (by decide)
  ⟨by decide, by decide, (h.2 (by decide)).1, (h.2 (by decide)).2.1⟩

/-! ## `sigcheck` off the main thread -/

/-- C13: with thread support, `sigcheck` called from a thread other than the main
thread returns 0, calls no handler, and leaves the whole state as it was (every
tripped flag and the counter included), whatever the state: pending trips and a
non-zero counter make no difference. -/
theorem C13_other_thread_no_scan (p : Platform) (rt : Runtime) (thread_ident : Int)
    (frame : Obj) (s : State) (hw : p.WITH_THREAD = true)
    (hthread : thread_ident ≠ s.main_thread) :
    (sigcheck p rt thread_ident frame s).ret = 0 ∧
      (sigcheck p rt thread_ident frame s).err = none ∧
      (sigcheck p rt thread_ident frame s).calls = [] ∧
      (sigcheck p rt thread_ident frame s).state = s := by
  unfold sigcheck
  by_cases hz : s.tripped = 0
  · simp only [hz, if_true, and_self]
  · simp only [hz, if_false, hw, hthread, ne_eq, not_false_eq_true, and_self, if_true]

theorem C13_other_thread_no_scan_witness :
    demo_platform.WITH_THREAD = true ∧
      (5 : Int) ≠ (deliveries demo_platform 100 [3, 7] demo_handlers).main_thread ∧
      (deliveries demo_platform 100 [3, 7] demo_handlers).tripped = 2 ∧
      (sigcheck demo_platform demo_runtime 5 Obj.NULL
        (deliveries demo_platform 100 [3, 7] demo_handlers)).ret = 0 ∧
      (sigcheck demo_platform demo_runtime 5 Obj.NULL
        (deliveries demo_platform 100 [3, 7] demo_handlers)).calls = [] ∧
      (sigcheck demo_platform demo_runtime 5 Obj.NULL
        (deliveries demo_platform 100 [3, 7] demo_handlers)).state
        = deliveries demo_platform 100 [3, 7] demo_handlers :=
  have h := C13_other_thread_no_scan demo_platform demo_runtime 5 Obj.NULL
    (deliveries demo_platform 100 [3, 7] demo_handlers) (by decide) (by decide)
  ⟨by decide, by decide, by decide, h.1, h.2.2.1, h.2.2.2⟩

/-! ## `signal_handler` and the process identity -/

theorem signal_handler_sig_list_other (p : Platform) (pid : Int) (n : Nat) (s : State)
    (m : Nat) (hm : m ≠ n) : (signal_handler p pid n s).sig_list m = s.sig_list m := by
  unfold signal_handler
  rw [signal_sig_list]
  dsimp only
  split
  · exact Function.update_noteq hm _ _
  · rfl

theorem signal_handler_foreign (p : Platform) (pid : Int) (n : Nat) (s : State)
    (hw : p.WITH_THREAD = true) (hpid : pid ≠ s.main_pid) :
    (signal_handler p pid n s).sig_list = s.sig_list ∧
      (signal_handler p pid n s).tripped = s.tripped := by
  have hcond : ¬ (p.WITH_THREAD = false ∨ pid = s.main_pid) := by
    rintro (h | h)
    · rw [hw] at h
      cases h
    · exact hpid h
  unfold signal_handler
  rw [signal_sig_list, signal_tripped]
  dsimp only
  rw [if_neg hcond]
  exact ⟨rfl, rfl⟩

/-- C19: with thread support, `signal_handler(n)` run in a process whose
`getpid()` differs from the `main_pid` recorded by `initsignal` leaves `sig_list`
(the flag of slot `n` and of every other slot) and the `tripped` counter as they
were.  Run in the owner process it sets the flag of slot `n`, keeps that slot's
handler, leaves every other slot as it was and increments the counter, which is
then non-zero unless the `int` wraps around. -/
theorem C19_process_identity_check (p : Platform) (pid : Int) (n : Nat) (s : State)
    (hw : p.WITH_THREAD = true) :
    (pid ≠ s.main_pid →
      (signal_handler p pid n s).sig_list = s.sig_list ∧
        (signal_handler p pid n s).tripped = s.tripped) ∧
    (pid = s.main_pid →
      ((signal_handler p pid n s).sig_list n).tripped = 1 ∧
        ((signal_handler p pid n s).sig_list n).func = (s.sig_list n).func ∧
        (∀ m, m ≠ n → (signal_handler p pid n s).sig_list m = s.sig_list m) ∧
        (signal_handler p pid n s).tripped = int_wrap (s.tripped + 1) ∧
        (0 ≤ s.tripped → s.tripped + 1 < 2147483648 →
          (signal_handler p pid n s).tripped ≠ 0)) := by
  constructor
  · intro hpid
    exact signal_handler_foreign p pid n s hw hpid
  · intro hpid
    obtain ⟨htab, hcnt⟩ := signal_handler_owner p pid n s (Or.inr hpid)
    refine ⟨?_, ?_, ?_, hcnt, ?_⟩
    · rw [htab, Function.update_same]
    · rw [htab, Function.update_same]
    · intro m hm
      exact signal_handler_sig_list_other p pid n s m hm
    · intro h0 h1
      rw [hcnt, int_wrap_of_range _ (by omega) (by omega)]
      omega

theorem C19_process_identity_check_witness :
    demo_platform.WITH_THREAD = true ∧ (101 : Int) ≠ demo_handlers.main_pid ∧
      (signal_handler demo_platform 101 7 demo_handlers).sig_list = demo_handlers.sig_list ∧
      (signal_handler demo_platform 101 7 demo_handlers).tripped = demo_handlers.tripped ∧
      ((signal_handler demo_platform 100 7 demo_handlers).sig_list 7).tripped = 1 ∧
      (signal_handler demo_platform 100 7 demo_handlers).tripped ≠ 0 :=
  have h := C19_process_identity_check demo_platform 101 7 demo_handlers (by decide)
  have h' := C19_process_identity_check demo_platform 100 7 demo_handlers (by decide)
  ⟨by decide, by decide, (h.1 (by decide)).1, (h.1 (by decide)).2,
    (h'.2 (by decide)).1, (h'.2 (by decide)).2.2.2.2 (by decide) (by decide)⟩

/-! ## A slot whose flag is clear is not delivered -/

theorem signal_signal_install_sig_list (p : Platform) (n : Int) (h : Obj)
    (func : Sighandler) (s : State) :
    (signal_signal_install p n h func s).2.sig_list = s.sig_list ∨
      (signal_signal_install p n h func s).2.sig_list
        = Function.update s.sig_list n.toNat { tripped := 0, func := h } := by
  unfold signal_signal_install
  dsimp only
  split
  · left
    exact signal_sig_list _ _ _ _
  · right
    simp only [signal_sig_list]

/-- Whatever its outcome, `signal_signal` either leaves `sig_list` alone or
rewrites the one slot it registers, with a clear flag. -/
theorem signal_signal_sig_list (p : Platform) (thread_ident n : Int) (h : Obj)
    (s : State) :
    (signal_signal p thread_ident n h s).2.sig_list = s.sig_list ∨
      (signal_signal p thread_ident n h s).2.sig_list
        = Function.update s.sig_list n.toNat { tripped := 0, func := h } := by
  unfold signal_signal
  split_ifs <;> first
    | exact Or.inl rfl
    | exact signal_signal_install_sig_list _ _ _ _ _

theorem signal_signal_keeps_clear (p : Platform) (thread_ident k : Int) (h : Obj)
    (s : State) (n : Nat) (hclear : (s.sig_list n).tripped = 0) :
    ((signal_signal p thread_ident k h s).2.sig_list n).tripped = 0 := by
  rcases signal_signal_sig_list p thread_ident k h s with heq | heq
  · rw [heq]
    exact hclear
  · rw [heq]
    by_cases hn : n = k.toNat
    · subst hn
      rw [Function.update_same]
    · rw [Function.update_noteq hn]
      exact hclear

/-- When the flag of slot `n` is clear and no handler call trips signal `n`, the
scan makes no call for signal `n`. -/
theorem sigcheck_loop_skips_clear (p : Platform) (rt : Runtime) (thread_ident : Int)
    (f : Obj) (n : Nat) (hno : NoTripOf p rt thread_ident f n) :
    ∀ (fuel i : Nat) (s : State), (s.sig_list n).tripped = 0 →
      ∀ c ∈ (sigcheck_loop p rt thread_ident f fuel i s).calls, c.sig_num ≠ (n : Int) := by
  intro fuel
  induction fuel with
  | zero =>
    intro i s _ c hc
    simp [sigcheck_loop] at hc
  | succ fuel ih =>
    intro i s hclear c hc
    unfold sigcheck_loop at hc
    split_ifs at hc with hflag
    · have hin : i ≠ n := by
        rintro rfl
        exact hflag hclear
      have hclear1 : ((Function.update s.sig_list i
          { s.sig_list i with tripped := 0 }) n).tripped = 0 := by
        rw [Function.update_noteq (Ne.symm hin)]
        exact hclear
      have hafter := hno (s.sig_list i).func (i : Int)
        { s with sig_list :=
            Function.update s.sig_list i { s.sig_list i with tripped := 0 } } hclear1
      dsimp only at hc
      simp only [Function.update_same] at hc
      split at hc
      · simp only [List.mem_singleton] at hc
        rw [hc]
        simp only [ne_eq, Nat.cast_inj]
        exact hin
      · simp only [List.mem_cons] at hc
        rcases hc with hc | hc
        · rw [hc]
          simp only [ne_eq, Nat.cast_inj]
          exact hin
        · exact ih (i + 1) _ hafter c hc
    · exact ih (i + 1) s hclear c hc

theorem sigcheck_skips_clear (p : Platform) (rt : Runtime) (thread_ident : Int)
    (frame : Obj) (n : Nat) (s : State)
    (hno : NoTripOf p rt thread_ident (frame_arg frame) n)
    (hclear : (s.sig_list n).tripped = 0) :
    ∀ c ∈ (sigcheck p rt thread_ident frame s).calls, c.sig_num ≠ (n : Int) := by
  unfold sigcheck
  split_ifs
  · intro c hc
    simp at hc
  · intro c hc
    simp at hc
  · exact sigcheck_loop_skips_clear p rt thread_ident (frame_arg frame) n hno _ _ s hclear

/-- In the example runtime the only signal that trips while a handler runs is
signal 3. -/
theorem demo_runtime_no_trip (thread_ident : Int) (f : Obj) (n : Nat) (hn : n ≠ 3) :
    NoTripOf demo_platform demo_runtime thread_ident f n := by
  intro func m st hclear
  unfold call_object
  split
  · exact hclear
  · simp only [demo_runtime]
    split
    · exact hclear
    · exact hclear
    · simp only [List.foldl_cons, List.foldl_nil, run_op]
      exact signal_signal_keeps_clear _ _ _ _ _ _ hclear
    · simp only [List.foldl_cons, List.foldl_nil, run_op, kernel_deliver]
      split
      · rw [signal_handler_sig_list_other _ _ _ _ _ hn]
        exact hclear
      · exact hclear
    · exact hclear

/-- C11: a successful `signal_signal(n, h)` (so: `n` valid, called on the main
thread) clears the tripped flag of slot `n`, pending or not, and leaves the
tripped flag of every other slot as it was; a `sigcheck` that follows, signal
`n` not tripping anew, makes no call for signal `n`, neither of the old handler
nor of the new one. -/
theorem C11_registration_discards_trip (p : Platform) (rt : Runtime)
    (thread_ident n : Int) (h : Obj) (frame : Obj) (s : State) (old : Obj)
    (hs : (signal_signal p thread_ident n h s).1 = Except.ok old)
    (hno : NoTripOf p rt thread_ident (frame_arg frame) n.toNat) :
    ((signal_signal p thread_ident n h s).2.sig_list n.toNat).tripped = 0 ∧
      (∀ m, m ≠ n.toNat →
        ((signal_signal p thread_ident n h s).2.sig_list m).tripped
          = (s.sig_list m).tripped) ∧
      (∀ c ∈ (sigcheck p rt thread_ident frame
          (signal_signal p thread_ident n h s).2).calls, c.sig_num ≠ n) := by
  obtain ⟨hn, _, htab⟩ := signal_signal_ok hs
  have hclear : ((signal_signal p thread_ident n h s).2.sig_list n.toNat).tripped = 0 := by
    rw [htab, Function.update_same]
  refine ⟨hclear, ?_, ?_⟩
  · intro m hm
    rw [htab, Function.update_noteq hm]
  · intro c hc
    have := sigcheck_skips_clear p rt thread_ident frame n.toNat _ hno hclear c hc
    have hcast : ((n.toNat : Nat) : Int) = n := Int.toNat_of_nonneg (by omega)
    rw [hcast] at this
    exact this

theorem C11_registration_discards_trip_witness :
    ((deliveries demo_platform 100 [3, 7] demo_handlers).sig_list 7).tripped = 1 ∧
      (signal_signal demo_platform 1 7 (Obj.funcobject 1)
        (deliveries demo_platform 100 [3, 7] demo_handlers)).1
        = Except.ok (Obj.funcobject 0) ∧
      ((signal_signal demo_platform 1 7 (Obj.funcobject 1)
        (deliveries demo_platform 100 [3, 7] demo_handlers)).2.sig_list 7).tripped = 0 ∧
      (∀ c ∈ (sigcheck demo_platform demo_runtime 1 Obj.NULL
          (signal_signal demo_platform 1 7 (Obj.funcobject 1)
            (deliveries demo_platform 100 [3, 7] demo_handlers)).2).calls,
        c.sig_num ≠ 7) :=
  have h := C11_registration_discards_trip demo_platform demo_runtime 1 7
    (Obj.funcobject 1) Obj.NULL (deliveries demo_platform 100 [3, 7] demo_handlers)
    (Obj.funcobject 0) rfl (demo_runtime_no_trip 1 (frame_arg Obj.NULL) 7 (by decide))
  ⟨by decide, rfl, h.1, h.2.2⟩

/-! ## `intrcheck` -/

/-- C20: `intrcheck` on the main thread returns 1 exactly when the tripped flag
of slot `SIGINT` is set, and then clears that flag (keeping the slot's handler);
otherwise it returns 0 and leaves the state as it was.  On any thread it leaves
every other slot and the `tripped` counter as they were.  After it has returned
1, a `sigcheck` that follows, `SIGINT` not tripping anew, makes no call for
`SIGINT`.  With thread support, called from another thread it returns 0 and
leaves the state, the `SIGINT` flag included, as it was. -/
theorem C20_intrcheck_consumes_interrupt (p : Platform) (rt : Runtime)
    (thread_ident : Int) (frame : Obj) (s : State) :
    ((p.WITH_THREAD = true → thread_ident = s.main_thread) →
      ((intrcheck p thread_ident s).1 = 1 ↔ (s.sig_list p.SIGINT).tripped ≠ 0) ∧
      ((s.sig_list p.SIGINT).tripped ≠ 0 →
        ((intrcheck p thread_ident s).2.sig_list p.SIGINT).tripped = 0 ∧
        ((intrcheck p thread_ident s).2.sig_list p.SIGINT).func
          = (s.sig_list p.SIGINT).func) ∧
      ((s.sig_list p.SIGINT).tripped = 0 → intrcheck p thread_ident s = (0, s))) ∧
    ((∀ m, m ≠ p.SIGINT → (intrcheck p thread_ident s).2.sig_list m = s.sig_list m) ∧
      (intrcheck p thread_ident s).2.tripped = s.tripped) ∧
    ((intrcheck p thread_ident s).1 = 1 →
      NoTripOf p rt thread_ident (frame_arg frame) p.SIGINT →
      ∀ c ∈ (sigcheck p rt thread_ident frame (intrcheck p thread_ident s).2).calls,
        c.sig_num ≠ (p.SIGINT : Int)) ∧
    (p.WITH_THREAD = true → thread_ident ≠ s.main_thread →
      intrcheck p thread_ident s = (0, s)) := by
  have hret : (intrcheck p thread_ident s).1 = 1 →
      ((intrcheck p thread_ident s).2.sig_list p.SIGINT).tripped = 0 := by
    unfold intrcheck
    split_ifs <;> intro h1
    · cases h1
    · simp only [Function.update_same]
    · cases h1
  refine ⟨?_, ⟨?_, ?_⟩, ?_, ?_⟩
  · intro hmain
    have hth : ¬ (p.WITH_THREAD = true ∧ thread_ident ≠ s.main_thread) := by
      rintro ⟨hw, hne⟩
      exact hne (hmain hw)
    refine ⟨?_, ?_, ?_⟩
    · unfold intrcheck
      by_cases hflag : (s.sig_list p.SIGINT).tripped ≠ 0
      · simp only [hflag, hth, if_true, if_false, ne_eq, not_false_eq_true]
      · simp only [hflag, if_false, iff_false]
        decide
    · intro hflag
      unfold intrcheck
      simp only [hflag, hth, if_true, if_false, ne_eq, not_false_eq_true,
        Function.update_same, and_self]
    · intro hflag
      unfold intrcheck
      simp only [hflag, ne_eq, not_true_eq_false, if_false]
  · intro m hm
    unfold intrcheck
    split_ifs
    · rfl
    · exact Function.update_noteq hm _ _
    · rfl
  · unfold intrcheck
    split_ifs <;> rfl
  · intro h1 hno
    exact sigcheck_skips_clear p rt thread_ident frame p.SIGINT _ hno (hret h1)
  · intro hw hth
    unfold intrcheck
    split_ifs with h1 h2
    · rfl
    · exact absurd ⟨hw, hth⟩ h2
    · rfl

theorem C20_intrcheck_consumes_interrupt_witness :
    ((deliveries demo_platform 100 [2, 7] demo_handlers).sig_list 2).tripped = 1 ∧
      (intrcheck demo_platform 1 (deliveries demo_platform 100 [2, 7] demo_handlers)).1
        = 1 ∧
      ((intrcheck demo_platform 1
        (deliveries demo_platform 100 [2, 7] demo_handlers)).2.sig_list 2).tripped = 0 ∧
      (∀ c ∈ (sigcheck demo_platform demo_runtime 1 Obj.NULL
          (intrcheck demo_platform 1
            (deliveries demo_platform 100 [2, 7] demo_handlers)).2).calls,
        c.sig_num ≠ 2) ∧
      intrcheck demo_platform 5 (deliveries demo_platform 100 [2, 7] demo_handlers)
        = (0, deliveries demo_platform 100 [2, 7] demo_handlers) :=
  have h := C20_intrcheck_consumes_interrupt demo_platform demo_runtime 1 Obj.NULL
    (deliveries demo_platform 100 [2, 7] demo_handlers)
  have h5 := C20_intrcheck_consumes_interrupt demo_platform demo_runtime 5 Obj.NULL
    (deliveries demo_platform 100 [2, 7] demo_handlers)
  ⟨by decide, by decide, ((h.1 (by decide)).2.1 (by decide)).1,
    h.2.2.1 (by decide) (demo_runtime_no_trip 1 (frame_arg Obj.NULL) 2 (by decide)),
    h5.2.2.2 (by decide) (by decide)⟩

/-! ## Start-up: `initsignal` -/

theorem signal_refused (p : Platform) (i : Nat) (func : Sighandler) (s : State)
    (hu : p.uncatchable i = true) : signal p i func s = (Sighandler.SIG_ERR, s) := by
  unfold signal
  rw [if_pos hu]

theorem signal_accepted (p : Platform) (i : Nat) (func : Sighandler) (s : State)
    (hu : ¬ p.uncatchable i = true) :
    signal p i func s
      = (s.disposition i, { s with disposition := Function.update s.disposition i func }) := by
  unfold signal
  rw [if_neg hu]

theorem signal_probe_restore (p : Platform) (i : Nat) (s : State) :
    (signal p i (signal p i Sighandler.SIG_IGN s).1
        (signal p i Sighandler.SIG_IGN s).2).2.sig_list = s.sig_list ∧
      (signal p i (signal p i Sighandler.SIG_IGN s).1
        (signal p i Sighandler.SIG_IGN s).2).2.tripped = s.tripped ∧
      (signal p i (signal p i Sighandler.SIG_IGN s).1
        (signal p i Sighandler.SIG_IGN s).2).2.main_thread = s.main_thread ∧
      (signal p i (signal p i Sighandler.SIG_IGN s).1
        (signal p i Sighandler.SIG_IGN s).2).2.main_pid = s.main_pid ∧
      ∀ m, (signal p i (signal p i Sighandler.SIG_IGN s).1
        (signal p i Sighandler.SIG_IGN s).2).2.disposition m = s.disposition m := by
  refine ⟨?_, ?_, ?_, ?_, ?_⟩
  · rw [signal_sig_list, signal_sig_list]
  · rw [signal_tripped, signal_tripped]
  · rw [signal_main_thread, signal_main_thread]
  · rw [signal_main_pid, signal_main_pid]
  · intro m
    by_cases hu : p.uncatchable i = true
    · rw [signal_refused p i _ s hu, signal_refused p i _ s hu]
    · rw [signal_accepted p i _ s hu, signal_accepted p i _ _ hu]
      dsimp only
      by_cases hm : m = i
      · subst hm
        rw [Function.update_same]
      · rw [Function.update_noteq hm, Function.update_noteq hm]

theorem probe_eq (p : Platform) (i : Nat) (s : State) :
    probe p i s = if p.uncatchable i = true then Sighandler.SIG_ERR else s.disposition i := by
  unfold probe signal
  split <;> rfl

/-- The probing loop of `initsignal` run from slot `i` for `fuel` slots: each of
these slots gets a clear flag and the object for what its probe found, every
other slot and every disposition is as before, and so are the counter and the
recorded identities. -/
theorem initsignal_loop_spec (p : Platform) : ∀ (fuel i : Nat) (s : State),
    (∀ m, (initsignal_loop p fuel i s).disposition m = s.disposition m) ∧
      (initsignal_loop p fuel i s).tripped = s.tripped ∧
      (initsignal_loop p fuel i s).main_thread = s.main_thread ∧
      (initsignal_loop p fuel i s).main_pid = s.main_pid ∧
      (∀ m, i ≤ m → m < i + fuel →
        (initsignal_loop p fuel i s).sig_list m
          = { tripped := 0, func := probed_object (probe p m s) }) ∧
      (∀ m, ¬ (i ≤ m ∧ m < i + fuel) →
        (initsignal_loop p fuel i s).sig_list m = s.sig_list m) := by
  intro fuel
  induction fuel with
  | zero =>
    intro i s
    refine ⟨fun _ => rfl, rfl, rfl, rfl, ?_, fun _ _ => rfl⟩
    intro m h1 h2
    omega
  | succ fuel ih =>
    intro i s
    obtain ⟨hr1, hr2, hr3, hr4, hr5⟩ := signal_probe_restore p i s
    unfold initsignal_loop
    dsimp only
    obtain ⟨h1, h2, h3, h4, h5, h6⟩ := ih (i + 1)
      { (signal p i (signal p i Sighandler.SIG_IGN s).1
          (signal p i Sighandler.SIG_IGN s).2).2 with
        sig_list := Function.update
          (signal p i (signal p i Sighandler.SIG_IGN s).1
            (signal p i Sighandler.SIG_IGN s).2).2.sig_list i
          { tripped := 0,
            func := if (signal p i Sighandler.SIG_IGN s).1 = Sighandler.SIG_DFL then
                Obj.sig_dfl_object
              else if (signal p i Sighandler.SIG_IGN s).1 = Sighandler.SIG_IGN then
                Obj.sig_ign_object
              else Obj.None } }
    refine ⟨?_, ?_, ?_, ?_, ?_, ?_⟩
    · intro m
      rw [h1 m]
      exact hr5 m
    · rw [h2]
      exact hr2
    · rw [h3]
      exact hr3
    · rw [h4]
      exact hr4
    · intro m hm1 hm2
      by_cases hmi : m = i
      · subst hmi
        rw [h6 m (by omega)]
        simp only [Function.update_same]
        rfl
      · rw [h5 m (by omega) (by omega)]
        rw [probe_eq, probe_eq]
        dsimp only
        rw [hr5 m]
    · intro m hm
      rw [h6 m (by omega)]
      simp only
      rw [Function.update_noteq (by omega), hr1]

theorem initsignal_unfold (p : Platform) (thread_ident pid : Int) (s : State) :
    initsignal p thread_ident pid s
      = if ((initsignal_loop p (p.NSIG - 1) 1
            (initsignal_start p thread_ident pid s)).sig_list p.SIGINT).func
            = Obj.sig_dfl_object then
          (signal p p.SIGINT Sighandler.signal_handler
            { initsignal_loop p (p.NSIG - 1) 1 (initsignal_start p thread_ident pid s) with
              sig_list := Function.update
                (initsignal_loop p (p.NSIG - 1) 1
                  (initsignal_start p thread_ident pid s)).sig_list p.SIGINT
                { (initsignal_loop p (p.NSIG - 1) 1
                    (initsignal_start p thread_ident pid s)).sig_list p.SIGINT with
                  func := Obj.default_int_handler_object } }).2
        else initsignal_loop p (p.NSIG - 1) 1 (initsignal_start p thread_ident pid s) :=
  rfl

theorem initsignal_start_spec (p : Platform) (thread_ident pid : Int) (s : State) :
    (initsignal_start p thread_ident pid s).disposition = s.disposition ∧
      (initsignal_start p thread_ident pid s).tripped = s.tripped ∧
      (p.WITH_THREAD = true →
        (initsignal_start p thread_ident pid s).main_thread = thread_ident ∧
        (initsignal_start p thread_ident pid s).main_pid = pid) := by
  unfold initsignal_start
  dsimp only
  refine ⟨?_, ?_, ?_⟩
  · split <;> rfl
  · split <;> rfl
  · intro hw
    rw [if_pos hw]
    exact ⟨rfl, rfl⟩

theorem probed_object_dfl (t : Sighandler) :
    probed_object t = Obj.sig_dfl_object ↔ t = Sighandler.SIG_DFL := by
  cases t <;> simp [probed_object]

theorem probe_start (p : Platform) (thread_ident pid : Int) (s : State) (n : Nat) :
    probe p n (initsignal_start p thread_ident pid s) = probe p n s := by
  rw [probe_eq, probe_eq, (initsignal_start_spec p thread_ident pid s).1]

/-- What `initsignal` leaves behind.  Every valid slot has a clear flag and holds
the object for what its probe found, `default_int_handler_object` taking the
place of `SIG_DFL` in slot `SIGINT`; the disposition of a valid signal is
`signal_handler` for a `SIGINT` found at the default and otherwise what it was;
the counter is untouched. -/
theorem initsignal_spec (p : Platform) (thread_ident pid : Int) (s : State) :
    (∀ n, 1 ≤ n → n < p.NSIG →
      ((initsignal p thread_ident pid s).sig_list n).tripped = 0 ∧
      ((initsignal p thread_ident pid s).sig_list n).func
        = (if n = p.SIGINT ∧ probe p n s = Sighandler.SIG_DFL then
            Obj.default_int_handler_object
          else probed_object (probe p n s)) ∧
      (initsignal p thread_ident pid s).disposition n
        = (if n = p.SIGINT ∧ probe p n s = Sighandler.SIG_DFL then
            Sighandler.signal_handler
          else s.disposition n)) ∧
    (∀ m, m ≠ p.SIGINT → (initsignal p thread_ident pid s).disposition m = s.disposition m) ∧
    (initsignal p thread_ident pid s).tripped = s.tripped ∧
    (p.WITH_THREAD = true →
      (initsignal p thread_ident pid s).main_thread = thread_ident ∧
      (initsignal p thread_ident pid s).main_pid = pid) := by
  obtain ⟨hd, ht, hm, hp, hin, hout⟩ :=
    initsignal_loop_spec p (p.NSIG - 1) 1 (initsignal_start p thread_ident pid s)
  obtain ⟨hsd, hst, hsid⟩ := initsignal_start_spec p thread_ident pid s
  rw [initsignal_unfold]
  refine ⟨?_, ?_, ?_, ?_⟩
  · intro n h1 h2
    have hslot := hin n h1 (by omega)
    rw [probe_start] at hslot
    by_cases hint : n = p.SIGINT
    · rw [← hint]
      by_cases hdfl : probe p n s = Sighandler.SIG_DFL
      · have hcond : ((initsignal_loop p (p.NSIG - 1) 1
            (initsignal_start p thread_ident pid s)).sig_list n).func
            = Obj.sig_dfl_object := by
          rw [hslot]
          exact (probed_object_dfl _).2 hdfl
        have hu : ¬ p.uncatchable n = true := by
          intro hu
          rw [probe_eq, if_pos hu] at hdfl
          cases hdfl
        rw [if_pos hcond, signal_accepted _ _ _ _ hu]
        simp only [Function.update_same, hslot, hdfl, and_self, if_true, true_and]
      · have hcond : ¬ ((initsignal_loop p (p.NSIG - 1) 1
            (initsignal_start p thread_ident pid s)).sig_list n).func
            = Obj.sig_dfl_object := by
          rw [hslot]
          exact fun h => hdfl ((probed_object_dfl _).1 h)
        rw [if_neg hcond]
        simp only [hslot, hdfl, and_false, if_false, hd, hsd, and_self, true_and]
    · have hne : ¬ (n = p.SIGINT ∧ probe p n s = Sighandler.SIG_DFL) := fun h => hint h.1
      rw [if_neg hne, if_neg hne]
      split
      · rw [signal_sig_list, signal_disposition_other _ _ _ _ _ hint]
        simp only [Function.update_noteq hint, hslot, hd, hsd, and_self]
      · simp only [hslot, hd, hsd, and_self]
  · intro m hm'
    split
    · rw [signal_disposition_other _ _ _ _ _ hm']
      simp only [hd, hsd]
    · simp only [hd, hsd]
  · split
    · rw [signal_tripped]
      simp only [ht, hst]
    · simp only [ht, hst]
  · intro hw
    obtain ⟨hi1, hi2⟩ := hsid hw
    split
    · rw [signal_main_thread, signal_main_pid]
      simp only [hm, hp, hi1, hi2, and_self]
    · simp only [hm, hp, hi1, hi2, and_self]

/-- C15, as the code has it: after `initsignal`, for every signal number `n`
with `1 <= n < NSIG`, the tripped flag of slot `n` is clear.  If `signal()`
accepts `n`, the slot holds `SIG_DFL` if the disposition of `n` was the default,
`SIG_IGN` if it was ignore and `None` if it was any other handler, except that
a `SIGINT` found at the default is recorded as `default_int_handler`.  If
`signal()` refuses `n` (it answers `SIG_ERR`, as for a signal that cannot be
caught), the slot holds `None` whatever the disposition of `n` is.  The handler
the kernel holds as disposition of every signal other than such a `SIGINT` is the
same after `initsignal` as before it (a disposition being the handler value
alone: the flags and mask that go with a handler are not part of the state). -/
theorem C15_bootstrap_table (p : Platform) (thread_ident pid : Int) (s : State) (n : Nat)
    (hn : 1 ≤ n ∧ n < p.NSIG) :
    ((initsignal p thread_ident pid s).sig_list n).tripped = 0 ∧
      (p.uncatchable n = false →
        (s.disposition n = Sighandler.SIG_DFL → n ≠ p.SIGINT →
          ((initsignal p thread_ident pid s).sig_list n).func = Obj.sig_dfl_object) ∧
        (s.disposition n = Sighandler.SIG_DFL → n = p.SIGINT →
          ((initsignal p thread_ident pid s).sig_list n).func
            = Obj.default_int_handler_object) ∧
        (s.disposition n = Sighandler.SIG_IGN →
          ((initsignal p thread_ident pid s).sig_list n).func = Obj.sig_ign_object) ∧
        (s.disposition n ≠ Sighandler.SIG_DFL → s.disposition n ≠ Sighandler.SIG_IGN →
          ((initsignal p thread_ident pid s).sig_list n).func = Obj.None)) ∧
      (p.uncatchable n = true →
        ((initsignal p thread_ident pid s).sig_list n).func = Obj.None) ∧
      (¬ (n = p.SIGINT ∧ p.uncatchable n = false ∧
          s.disposition n = Sighandler.SIG_DFL) →
        (initsignal p thread_ident pid s).disposition n = s.disposition n) ∧
      (∀ m, m ≠ p.SIGINT →
        (initsignal p thread_ident pid s).disposition m = s.disposition m) := by
  obtain ⟨hvalid, hother, _, _⟩ := initsignal_spec p thread_ident pid s
  obtain ⟨hflag, hfunc, hdisp⟩ := hvalid n hn.1 hn.2
  refine ⟨hflag, ?_, ?_, ?_, hother⟩
  · intro hacc
    have hp : probe p n s = s.disposition n := by
      rw [probe_eq, hacc]
      simp only [Bool.false_eq_true, if_false]
    rw [hp] at hfunc
    refine ⟨?_, ?_, ?_, ?_⟩
    · intro hd hne
      rw [hfunc, if_neg (fun h => hne h.1), hd]
      rfl
    · intro hd heq
      rw [hfunc, if_pos ⟨heq, hd⟩]
    · intro hi
      rw [hfunc, if_neg (by rw [hi]; exact fun h => by cases h.2), hi]
      rfl
    · intro h1 h2
      rw [hfunc, if_neg (fun h => h1 h.2)]
      unfold probed_object
      rw [if_neg h1, if_neg h2]
  · intro href
    have hp : probe p n s = Sighandler.SIG_ERR := by
      rw [probe_eq, if_pos href]
    rw [hp] at hfunc
    rw [hfunc, if_neg (fun h => by cases h.2)]
    rfl
  · intro hne
    rw [hdisp, if_neg]
    rintro ⟨h1, h2⟩
    apply hne
    refine ⟨h1, ?_⟩
    cases hu : p.uncatchable n
    · rw [probe_eq, hu] at h2
      simp only [Bool.false_eq_true, if_false] at h2
      exact ⟨rfl, h2⟩
    · rw [probe_eq, if_pos hu] at h2
      cases h2

theorem C15_bootstrap_table_witness :
    ((1 : Nat) ≤ 2 ∧ 2 < demo_platform.NSIG) ∧
      demo_platform.uncatchable 2 = false ∧
      (static_state (fun _ => Sighandler.SIG_DFL)).disposition 2 = Sighandler.SIG_DFL ∧
      ((initsignal demo_platform 1 100
        (static_state (fun _ => Sighandler.SIG_DFL))).sig_list 2).tripped = 0 ∧
      ((initsignal demo_platform 1 100
        (static_state (fun _ => Sighandler.SIG_DFL))).sig_list 2).func
        = Obj.default_int_handler_object :=
  have h := C15_bootstrap_table demo_platform 1 100
    (static_state (fun _ => Sighandler.SIG_DFL)) 2 (by decide)
  ⟨by decide, by decide, rfl, h.1, (h.2.1 (by decide)).2.1 rfl (by decide)⟩

/-- C15, as stated, fails: on a platform where `signal()` refuses signal 9
(`SIGKILL`), start-up finds every signal at the default disposition.  Signal 9
is a valid signal number other than `SIGINT` and its disposition is the default,
yet after `initsignal` slot 9 holds `None`, not `SIG_DFL`. -/
theorem C15_refused_signal_is_None :
    ((1 : Nat) ≤ 9 ∧ 9 < demo_platform.NSIG) ∧ 9 ≠ demo_platform.SIGINT ∧
      (static_state (fun _ => Sighandler.SIG_DFL)).disposition 9 = Sighandler.SIG_DFL ∧
      ((initsignal demo_platform 1 100
        (static_state (fun _ => Sighandler.SIG_DFL))).sig_list 9).func = Obj.None ∧
      ((initsignal demo_platform 1 100
        (static_state (fun _ => Sighandler.SIG_DFL))).sig_list 9).func
        ≠ Obj.sig_dfl_object := by
  decide

theorem pending_calls_nil (f : Obj) (tbl : Nat → signalhandler_list) (i k : Nat)
    (h : ∀ m, i ≤ m → m < i + k → (tbl m).tripped = 0) : pending_calls f tbl i k = [] := by
  unfold pending_calls
  rw [List.map_eq_nil_iff, List.filter_eq_nil_iff]
  intro m hm
  rw [List.mem_range'_1] at hm
  simp only [decide_eq_true_eq, ne_eq, not_not]
  exact h m hm.1 hm.2

/-- C14: let `initsignal` run over the zero statics in a process where `SIGINT`
is a valid signal number that `signal()` accepts and whose disposition is the
default.  Then slot `SIGINT` holds `default_int_handler`, and once `SIGINT` has
tripped in that process a `sigcheck` on the main thread returns 1 with
`KeyboardInterrupt` set, an error of the Interrupted kind, having called
`default_int_handler` for `SIGINT` and nothing else.  The function
`default_int_handler` itself fails with `KeyboardInterrupt` for every argument
and leaves the state as it was. -/
theorem C14_default_interrupt (p : Platform) (rt : Runtime) (thread_ident pid : Int)
    (frame : Obj) (disposition : Nat → Sighandler)
    (hint : 1 ≤ p.SIGINT ∧ p.SIGINT < p.NSIG)
    (haccept : p.uncatchable p.SIGINT = false)
    (hdfl : disposition p.SIGINT = Sighandler.SIG_DFL) :
    ((initsignal p thread_ident pid (static_state disposition)).sig_list p.SIGINT).func
        = Obj.default_int_handler_object ∧
      (sigcheck p rt thread_ident frame
        (signal_handler p pid p.SIGINT
          (initsignal p thread_ident pid (static_state disposition)))).ret = 1 ∧
      (sigcheck p rt thread_ident frame
        (signal_handler p pid p.SIGINT
          (initsignal p thread_ident pid (static_state disposition)))).err
        = some PyErr.KeyboardInterrupt ∧
      PyErr.KeyboardInterrupt.kind = some ErrorKind.Interrupted ∧
      (sigcheck p rt thread_ident frame
        (signal_handler p pid p.SIGINT
          (initsignal p thread_ident pid (static_state disposition)))).calls
        = [{ func := Obj.default_int_handler_object, sig_num := (p.SIGINT : Int),
             frame := frame_arg frame }] ∧
      (∀ (self : Obj) (arg : Int × Obj) (st : State),
        default_int_handler self arg st = (Except.error PyErr.KeyboardInterrupt, st)) := by
  have hprobe : probe p p.SIGINT (static_state disposition) = Sighandler.SIG_DFL := by
    rw [probe_eq, haccept]
    simp only [Bool.false_eq_true, if_false]
    exact hdfl
  obtain ⟨hvalid, _, hcnt, hids⟩ :=
    initsignal_spec p thread_ident pid (static_state disposition)
  obtain ⟨_, hfunc, _⟩ := hvalid p.SIGINT hint.1 hint.2
  rw [if_pos ⟨rfl, hprobe⟩] at hfunc
  have howner : p.WITH_THREAD = false ∨
      pid = (initsignal p thread_ident pid (static_state disposition)).main_pid := by
    cases hw : p.WITH_THREAD
    · exact Or.inl rfl
    · exact Or.inr (hids hw).2.symm
  obtain ⟨htab, htrip⟩ := signal_handler_owner p pid p.SIGINT _ howner
  have hcnt1 : (signal_handler p pid p.SIGINT
      (initsignal p thread_ident pid (static_state disposition))).tripped = 1 := by
    rw [htrip, hcnt]
    rfl
  have hslot : (signal_handler p pid p.SIGINT
      (initsignal p thread_ident pid (static_state disposition))).sig_list p.SIGINT
      = { tripped := 1, func := Obj.default_int_handler_object } := by
    rw [htab, Function.update_same]
    dsimp only
    rw [hfunc]
  have hclear : ∀ m, 1 ≤ m → m < p.SIGINT →
      ((signal_handler p pid p.SIGINT
        (initsignal p thread_ident pid (static_state disposition))).sig_list m).tripped
        = 0 := by
    intro m h1 h2
    rw [signal_handler_sig_list_other _ _ _ _ _ (by omega)]
    exact (hvalid m h1 (by omega)).1
  obtain ⟨hret, herr, hcalls, _, _⟩ := sigcheck_first_failure p rt thread_ident frame
    p.SIGINT PyErr.KeyboardInterrupt
    (signal_handler p pid p.SIGINT
      (initsignal p thread_ident pid (static_state disposition)))
    hint (by rw [hslot]; decide) (by rw [hcnt1]; decide)
    (by
      intro hw
      rw [signal_handler_main_thread]
      exact (hids hw).1.symm)
    (fun m h1 h2 h3 => absurd (hclear m h1 h2) h3)
    (by rw [hslot]; exact fun _ => rfl)
    (by rw [hslot]; exact fun _ => ⟨rfl, rfl⟩)
  refine ⟨hfunc, hret, herr, rfl, ?_, fun _ _ _ => rfl⟩
  rw [hcalls, hslot, pending_calls_nil _ _ _ _ (fun m h1 h2 => hclear m h1 (by omega))]
  rfl

theorem C14_default_interrupt_witness :
    ((1 : Nat) ≤ demo_platform.SIGINT ∧ demo_platform.SIGINT < demo_platform.NSIG) ∧
      (demo_boot.sig_list 2).func = Obj.default_int_handler_object ∧
      (sigcheck demo_platform demo_runtime 1 Obj.NULL
        (signal_handler demo_platform 100 2 demo_boot)).ret = 1 ∧
      (sigcheck demo_platform demo_runtime 1 Obj.NULL
        (signal_handler demo_platform 100 2 demo_boot)).err
        = some PyErr.KeyboardInterrupt :=
  have h := C14_default_interrupt demo_platform demo_runtime 1 100 Obj.NULL
    (fun _ => Sighandler.SIG_DFL) (by decide) (by decide) rfl
  ⟨by decide, h.1, h.2.1, h.2.2.1⟩

/-! ## A pass that ends without error, and the pass after a failure -/

theorem pending_calls_flagged (f : Obj) (tbl : Nat → signalhandler_list) (i k : Nat) :
    ∀ c ∈ pending_calls f tbl i k,
      ∃ m, i ≤ m ∧ m < i + k ∧ (tbl m).tripped ≠ 0 ∧ c.sig_num = (m : Int) := by
  intro c hc
  simp only [pending_calls, List.mem_map, List.mem_filter, List.mem_range'_1,
    decide_eq_true_eq] at hc
  obtain ⟨m, ⟨⟨h1, h2⟩, h3⟩, rfl⟩ := hc
  exact ⟨m, h1, h2, h3, rfl⟩

/-- A pass of `sigcheck` on the main thread over a non-zero counter in which every
pending handler returns normally and is quiet: it calls the pending handlers in
ascending order, returns 0 with no exception set, and leaves the counter at 0
and the flags of all valid slots clear. -/
theorem sigcheck_success_drains (p : Platform) (rt : Runtime) (thread_ident : Int)
    (frame : Obj) (s : State) (hcount : s.tripped ≠ 0)
    (hmain : p.WITH_THREAD = true → thread_ident = s.main_thread)
    (hcb : ∀ m, 1 ≤ m → m < p.NSIG → (s.sig_list m).tripped ≠ 0 →
      Succeeds p rt thread_ident (frame_arg frame) (s.sig_list m).func m ∧
        Quiet p rt thread_ident (frame_arg frame) (s.sig_list m).func m) :
    (sigcheck p rt thread_ident frame s).ret = 0 ∧
      (sigcheck p rt thread_ident frame s).err = none ∧
      (sigcheck p rt thread_ident frame s).calls
        = pending_calls (frame_arg frame) s.sig_list 1 (p.NSIG - 1) ∧
      (sigcheck p rt thread_ident frame s).state.tripped = 0 ∧
      (sigcheck p rt thread_ident frame s).state.sig_list
        = clear_range 1 (p.NSIG - 1) s.sig_list := by
  rw [sigcheck_scans p rt thread_ident frame s hcount hmain]
  obtain ⟨s2, hs2, _, hloop⟩ := sigcheck_loop_quiet_prefix p rt thread_ident
    (frame_arg frame) 0 (p.NSIG - 1) 1 s (fun m h1 h2 => hcb m h1 (by omega))
  rw [Nat.add_zero] at hloop
  rw [hloop]
  simp only [sigcheck_loop, List.append_nil, hs2, and_self]

/-- C17, as the code has it: let `sigcheck` on the main thread fail at the
pending signal `i` (the pending handlers below `i` return normally, the handler
of `i` fails), every handler called leaving the table and the counter alone
while it runs.  Then the pass returns 1 with that handler's exception, and
afterwards the flag of slot `i` and of every valid slot below it is clear.  If
the handlers of the signals still pending return normally and are quiet too,
the next `sigcheck` on the main thread calls no handler for `i` or for any slot
below `i`, and returns 0 with no exception set. -/
theorem C17_error_once (p : Platform) (rt : Runtime) (thread_ident : Int)
    (frame : Obj) (i : Nat) (e : PyErr) (s : State)
    (hi : 1 ≤ i ∧ i < p.NSIG) (hflag : (s.sig_list i).tripped ≠ 0)
    (hcount : s.tripped ≠ 0)
    (hmain : p.WITH_THREAD = true → thread_ident = s.main_thread)
    (hlow : ∀ m, 1 ≤ m → m < i → (s.sig_list m).tripped ≠ 0 →
      Succeeds p rt thread_ident (frame_arg frame) (s.sig_list m).func m ∧
        Quiet p rt thread_ident (frame_arg frame) (s.sig_list m).func m)
    (hfail : Fails p rt thread_ident (frame_arg frame) (s.sig_list i).func i e)
    (hquiet : Quiet p rt thread_ident (frame_arg frame) (s.sig_list i).func i)
    (hrest : ∀ m, i < m → m < p.NSIG → (s.sig_list m).tripped ≠ 0 →
      Succeeds p rt thread_ident (frame_arg frame) (s.sig_list m).func m ∧
        Quiet p rt thread_ident (frame_arg frame) (s.sig_list m).func m) :
    (sigcheck p rt thread_ident frame s).ret = 1 ∧
      (sigcheck p rt thread_ident frame s).err = some e ∧
      (∀ m, 1 ≤ m → m ≤ i →
        ((sigcheck p rt thread_ident frame s).state.sig_list m).tripped = 0) ∧
      (∀ c ∈ (sigcheck p rt thread_ident frame
          (sigcheck p rt thread_ident frame s).state).calls, (i : Int) < c.sig_num) ∧
      (sigcheck p rt thread_ident frame
        (sigcheck p rt thread_ident frame s).state).ret = 0 ∧
      (sigcheck p rt thread_ident frame
        (sigcheck p rt thread_ident frame s).state).err = none := by
  obtain ⟨hret, herr, _, htab, hcnt⟩ := sigcheck_first_failure p rt thread_ident
    frame i e s hi hflag hcount hmain hlow hfail hquiet
  have hcleared : ∀ m, 1 ≤ m → m ≤ i →
      ((sigcheck p rt thread_ident frame s).state.sig_list m).tripped = 0 := by
    intro m h1 h2
    rw [htab]
    simp only [clear_range]
    rw [if_pos (by omega)]
  have hslot : ∀ m, i < m →
      (sigcheck p rt thread_ident frame s).state.sig_list m = s.sig_list m := by
    intro m hm
    rw [htab]
    simp only [clear_range]
    rw [if_neg (by omega)]
  obtain ⟨hret2, herr2, hcalls2, _, _⟩ := sigcheck_success_drains p rt thread_ident frame
    (sigcheck p rt thread_ident frame s).state (by rw [hcnt]; exact hcount)
    (by rw [sigcheck_main_thread]; exact hmain) (by
      intro m h1 h2 h3
      by_cases hm : m ≤ i
      · exact absurd (hcleared m h1 hm) h3
      · rw [hslot m (by omega)] at h3 ⊢
        exact hrest m (by omega) h2 h3)
  refine ⟨hret, herr, hcleared, ?_, hret2, herr2⟩
  intro c hc
  rw [hcalls2] at hc
  obtain ⟨m, h1, _, h3, h4⟩ := pending_calls_flagged _ _ _ _ c hc
  rw [h4]
  by_cases hm : m ≤ i
  · exact absurd (hcleared m h1 hm) h3
  · omega

theorem C17_error_once_witness :
    (sigcheck demo_platform demo_runtime 1 Obj.NULL
        (deliveries demo_platform 100 [7, 5, 3]
          (register_all demo_platform 1 (Obj.funcobject 1) [5] demo_handlers))).ret = 1 ∧
      (∀ m, 1 ≤ m → m ≤ 5 →
        ((sigcheck demo_platform demo_runtime 1 Obj.NULL
          (deliveries demo_platform 100 [7, 5, 3]
            (register_all demo_platform 1 (Obj.funcobject 1) [5]
              demo_handlers))).state.sig_list m).tripped = 0) ∧
      (∀ c ∈ (sigcheck demo_platform demo_runtime 1 Obj.NULL
          (sigcheck demo_platform demo_runtime 1 Obj.NULL
            (deliveries demo_platform 100 [7, 5, 3]
              (register_all demo_platform 1 (Obj.funcobject 1) [5]
                demo_handlers))).state).calls, ((5 : Nat) : Int) < c.sig_num) ∧
      (sigcheck demo_platform demo_runtime 1 Obj.NULL
        (sigcheck demo_platform demo_runtime 1 Obj.NULL
          (deliveries demo_platform 100 [7, 5, 3]
            (register_all demo_platform 1 (Obj.funcobject 1) [5]
              demo_handlers))).state).ret = 0 :=
  have h := C17_error_once demo_platform demo_runtime 1 Obj.NULL 5 (PyErr.Exception 1)
    (deliveries demo_platform 100 [7, 5, 3]
      (register_all demo_platform 1 (Obj.funcobject 1) [5] demo_handlers))
    (by decide) (by decide) (by decide) (by decide)
    (fun m _ h2 h3 => by
      have hm : m = 1 ∨ m = 2 ∨ m = 3 ∨ m = 4 := by omega
      rcases hm with rfl | rfl | rfl | rfl <;>
        first
        | exact ⟨fun _ => ⟨Obj.None, rfl⟩, fun _ => ⟨rfl, rfl⟩⟩
        | exact absurd rfl h3)
    (fun _ => rfl) (fun _ => ⟨rfl, rfl⟩)
    (fun m h1 h2 h3 => by
      have h2' : m < 32 := h2
      interval_cases m <;>
        first
        | exact ⟨fun _ => ⟨Obj.None, rfl⟩, fun _ => ⟨rfl, rfl⟩⟩
        | exact absurd rfl h3)
  ⟨h.1, h.2.2.1, h.2.2.2.1, h.2.2.2.2.1⟩

/-- C17, as stated, fails: signals 3, 5 and 7 are pending; the handlers of 3 and
5 return normally, but while the handler of 5 runs signal 3 trips again; the
handler of 7 raises.  The pass fails because the callback of signal 7 failed,
yet afterwards the flag of slot 3, below 7, is set, and the next `sigcheck`, in
which nothing trips and every handler returns normally, calls the handler of
signal 3 again. -/
theorem C17_trip_during_failing_pass :
    (sigcheck demo_platform demo_runtime 1 Obj.NULL
        (deliveries demo_platform 100 [3, 5, 7] demo_retrip)).ret = 1 ∧
      (sigcheck demo_platform demo_runtime 1 Obj.NULL
        (deliveries demo_platform 100 [3, 5, 7] demo_retrip)).calls
        = [{ func := Obj.funcobject 0, sig_num := 3, frame := Obj.None },
           { func := Obj.methodobject 3, sig_num := 5, frame := Obj.None },
           { func := Obj.funcobject 1, sig_num := 7, frame := Obj.None }] ∧
      ((sigcheck demo_platform demo_runtime 1 Obj.NULL
        (deliveries demo_platform 100 [3, 5, 7] demo_retrip)).state.sig_list 3).tripped
        = 1 ∧
      (sigcheck demo_platform demo_runtime 1 Obj.NULL
        (sigcheck demo_platform demo_runtime 1 Obj.NULL
          (deliveries demo_platform 100 [3, 5, 7] demo_retrip)).state).calls
        = [{ func := Obj.funcobject 0, sig_num := 3, frame := Obj.None }] ∧
      (sigcheck demo_platform demo_runtime 1 Obj.NULL
        (sigcheck demo_platform demo_runtime 1 Obj.NULL
          (deliveries demo_platform 100 [3, 5, 7] demo_retrip)).state).ret = 0 := by
  decide

/-- C16 fails on the code.  In the state reached when signal 3 is delivered
while `sigcheck` is calling the handler of signal 7 (a pass in which every
handler returns normally), the counter is 0 and the flag of slot 3 is set.  A
`sigcheck` on the main thread in that state calls no handler, nothing trips
while it runs, and it returns 0; yet afterwards the flag of slot 3 is still
set. -/
theorem C16_success_with_flag_left :
    (sigcheck demo_platform demo_runtime 1 Obj.NULL
        (deliveries demo_platform 100 [7] demo_race)).ret = 0 ∧
      demo_race_after.tripped = 0 ∧
      (sigcheck demo_platform demo_runtime 1 Obj.NULL demo_race_after).ret = 0 ∧
      (sigcheck demo_platform demo_runtime 1 Obj.NULL demo_race_after).calls = [] ∧
      (sigcheck demo_platform demo_runtime 1 Obj.NULL demo_race_after).state.tripped = 0 ∧
      ((sigcheck demo_platform demo_runtime 1 Obj.NULL demo_race_after).state.sig_list
        3).tripped = 1 := by
  decide

/-! ## Dispositions and handlers stay in step -/

theorem is_callable_probed_object (t : Sighandler) : is_callable (probed_object t) = false := by
  unfold probed_object
  split_ifs <;> rfl

/-- When no signal starts with this module's handler or with the error value as
its disposition, `initsignal` leaves the table and the kernel in step. -/
theorem initsignal_installed (p : Platform) (thread_ident pid : Int) (s : State)
    (hstart : ∀ n, 1 ≤ n → n < p.NSIG →
      s.disposition n ≠ Sighandler.signal_handler ∧ s.disposition n ≠ Sighandler.SIG_ERR) :
    Installed p (initsignal p thread_ident pid s) := by
  intro n h1 h2
  obtain ⟨hvalid, _, _, _⟩ := initsignal_spec p thread_ident pid s
  obtain ⟨hflag, hfunc, hdisp⟩ := hvalid n h1 h2
  obtain ⟨hs1, hs2⟩ := hstart n h1 h2
  rw [hfunc, hdisp]
  refine ⟨?_, ?_, fun h => absurd hflag h⟩
  · split
    · intro h
      cases h
    · exact hs2
  · split
    · simp [is_callable, is_methodobject]
    · rw [is_callable_probed_object]
      simp [hs1]

theorem installed_of_sig_list_disposition (p : Platform) (s s' : State)
    (h1 : s'.sig_list = s.sig_list) (h2 : ∀ n, s'.disposition n = s.disposition n)
    (hinv : Installed p s) : Installed p s' := by
  intro n hn1 hn2
  rw [h1, h2 n]
  exact hinv n hn1 hn2

/-- Clearing the tripped flag of a slot keeps the table and the kernel in
step. -/
theorem installed_clear_flag (p : Platform) (s : State) (i : Nat) (hinv : Installed p s) :
    Installed p
      { s with sig_list := Function.update s.sig_list i { s.sig_list i with tripped := 0 } } := by
  intro n hn1 hn2
  obtain ⟨h1, h2, h3⟩ := hinv n hn1 hn2
  dsimp only
  by_cases hni : n = i
  · subst hni
    rw [Function.update_same]
    exact ⟨h1, h2, fun h => absurd rfl h⟩
  · rw [Function.update_noteq hni]
    exact ⟨h1, h2, h3⟩

theorem signal_signal_install_installed (p : Platform) (k : Int) (h : Obj)
    (func : Sighandler) (s : State) (hk : 1 ≤ k ∧ k < (p.NSIG : Int))
    (hfunc : func ≠ Sighandler.SIG_ERR)
    (hpair : func = Sighandler.signal_handler ↔ is_callable h = true)
    (hinv : Installed p s) : Installed p (signal_signal_install p k h func s).2 := by
  unfold signal_signal_install
  dsimp only
  by_cases hu : p.uncatchable k.toNat = true
  · rw [signal_refused p _ _ s hu]
    simp only [if_true]
    exact hinv
  · rw [signal_accepted p _ _ s hu]
    dsimp only
    have hold : s.disposition k.toNat ≠ Sighandler.SIG_ERR :=
      (hinv k.toNat (by omega) (by omega)).1
    rw [if_neg hold]
    intro n hn1 hn2
    dsimp only
    by_cases hnk : n = k.toNat
    · subst hnk
      rw [Function.update_same, Function.update_same]
      exact ⟨hfunc, hpair, fun hne => absurd rfl hne⟩
    · rw [Function.update_noteq hnk, Function.update_noteq hnk]
      exact hinv n hn1 hn2

/-- Whatever its arguments and outcome, `signal_signal` keeps the table and the
kernel in step. -/
theorem signal_signal_installed (p : Platform) (thread_ident k : Int) (h : Obj)
    (s : State) (hinv : Installed p s) :
    Installed p (signal_signal p thread_ident k h s).2 := by
  unfold signal_signal
  split_ifs with h1 h2 h3 h4 h5
  · exact hinv
  · exact hinv
  · exact signal_signal_install_installed p k h _ s (by omega) (by decide)
      (by rw [h3]; decide) hinv
  · exact signal_signal_install_installed p k h _ s (by omega) (by decide)
      (by rw [h4]; decide) hinv
  · exact hinv
  · refine signal_signal_install_installed p k h _ s (by omega) (by decide) ?_ hinv
    have hc : is_callable h = true := by
      cases h <;> simp_all [is_callable, is_methodobject, is_funcobject,
        is_instancemethodobject]
    simp [hc]

/-- Run where it is installed, `signal_handler` keeps the table and the kernel in
step. -/
theorem signal_handler_installed (p : Platform) (pid : Int) (n : Nat) (s : State)
    (hdisp : s.disposition n = Sighandler.signal_handler) (hinv : Installed p s) :
    Installed p (signal_handler p pid n s) := by
  have hd : ∀ m, (signal_handler p pid n s).disposition m = s.disposition m := by
    intro m
    unfold signal_handler
    dsimp only
    by_cases hu : p.uncatchable n = true
    · rw [signal_refused p _ _ _ hu]
      dsimp only
      split <;> rfl
    · rw [signal_accepted p _ _ _ hu]
      dsimp only
      by_cases hmn : m = n
      · subst hmn
        rw [Function.update_same]
        exact hdisp.symm
      · rw [Function.update_noteq hmn]
        split <;> rfl
  intro m hm1 hm2
  obtain ⟨h1, h2, h3⟩ := hinv m hm1 hm2
  rw [hd m]
  by_cases hmn : m = n
  · subst hmn
    have hfunc : ((signal_handler p pid m s).sig_list m).func = (s.sig_list m).func := by
      unfold signal_handler
      rw [signal_sig_list]
      dsimp only
      split
      · simp only [Function.update_same]
      · rfl
    rw [hfunc]
    exact ⟨h1, h2, fun _ => h2.1 hdisp⟩
  · rw [signal_handler_sig_list_other _ _ _ _ _ hmn]
    exact ⟨h1, h2, h3⟩

theorem run_op_installed (p : Platform) (thread_ident : Int) (s : State) (op : Op)
    (hinv : Installed p s) : Installed p (run_op p thread_ident s op) := by
  cases op with
  | signal k obj => exact signal_signal_installed p thread_ident k obj s hinv
  | getsignal k =>
    simp only [run_op, signal_getsignal_state]
    exact hinv
  | deliver pid n =>
    simp only [run_op, kernel_deliver]
    split
    · exact signal_handler_installed p pid n s ‹_› hinv
    · exact hinv

theorem run_ops_installed (p : Platform) (thread_ident : Int) (ops : List Op) :
    ∀ s : State, Installed p s → Installed p (ops.foldl (run_op p thread_ident) s) := by
  induction ops with
  | nil => intro s hs; exact hs
  | cons op rest ih =>
    intro s hs
    rw [List.foldl_cons]
    exact ih _ (run_op_installed p thread_ident s op hs)

theorem call_object_installed (p : Platform) (rt : Runtime) (thread_ident : Int)
    (func : Obj) (sig_num : Int) (f : Obj) (s : State) (hinv : Installed p s) :
    Installed p (call_object p rt thread_ident func sig_num f s).2 := by
  unfold call_object
  split
  · exact hinv
  · exact run_ops_installed p thread_ident _ s hinv

theorem sigcheck_loop_installed (p : Platform) (rt : Runtime) (thread_ident : Int)
    (f : Obj) : ∀ (fuel i : Nat) (s : State), Installed p s →
    Installed p (sigcheck_loop p rt thread_ident f fuel i s).state := by
  intro fuel
  induction fuel with
  | zero =>
    intro i s hinv
    exact installed_of_sig_list_disposition p s _ rfl (fun _ => rfl) hinv
  | succ fuel ih =>
    intro i s hinv
    unfold sigcheck_loop
    split_ifs with hflag
    · dsimp only
      have hcall := call_object_installed p rt thread_ident
        ((Function.update s.sig_list i { s.sig_list i with tripped := 0 }) i).func (i : Int) f
        _ (installed_clear_flag p s i hinv)
      split
      · exact hcall
      · exact ih (i + 1) _ hcall
    · exact ih (i + 1) s hinv

theorem sigcheck_installed (p : Platform) (rt : Runtime) (thread_ident : Int)
    (frame : Obj) (s : State) (hinv : Installed p s) :
    Installed p (sigcheck p rt thread_ident frame s).state := by
  unfold sigcheck
  split_ifs
  · exact hinv
  · exact hinv
  · exact sigcheck_loop_installed p rt thread_ident _ _ _ s hinv

theorem intrcheck_installed (p : Platform) (thread_ident : Int) (s : State)
    (hinv : Installed p s) : Installed p (intrcheck p thread_ident s).2 := by
  unfold intrcheck
  split_ifs
  · exact hinv
  · exact installed_clear_flag p s p.SIGINT hinv
  · exact hinv

/-- Every state reached from start-up by steps in which `signal_handler` runs
only where it is installed has the table and the kernel in step. -/
theorem reachable_installed (p : Platform) (rt : Runtime) (thread_ident pid : Int)
    (disposition : Nat → Sighandler)
    (hstart : ∀ n, 1 ≤ n → n < p.NSIG →
      disposition n ≠ Sighandler.signal_handler ∧ disposition n ≠ Sighandler.SIG_ERR)
    (s : State) (hs : ReachableInstalled p rt thread_ident pid disposition s) :
    Installed p s := by
  induction hs with
  | boot => exact initsignal_installed p thread_ident pid _ hstart
  | step s s' _ hstep ih =>
    cases hstep with
    | signal_signal tid k obj => exact signal_signal_installed p tid k obj s ih
    | signal_getsignal k =>
      rw [signal_getsignal_state]
      exact ih
    | signal_handler pid' n h1 h2 h3 => exact signal_handler_installed p pid' n s h3 ih
    | sigcheck tid frame => exact sigcheck_installed p rt tid frame s ih
    | intrcheck tid => exact intrcheck_installed p tid s ih

theorem is_callable_not_None {c : Obj} (hc : is_callable c = true) : c ≠ Obj.None := by
  cases c <;> simp [is_callable, is_methodobject, is_funcobject,
    is_instancemethodobject] at hc ⊢

/-- C18: start from dispositions among which none is this module's handler (or
the error value `SIG_ERR`), run `initsignal`, and then let `signal_signal`,
`signal_getsignal`, `sigcheck`, `intrcheck` and `signal_handler` run in any
order, the kernel running `signal_handler` for a signal only while it is that
signal's disposition (also while a handler is being called).  In every state so
reached, for every valid signal number `n`, the disposition of `n` is
`signal_handler` if and only if slot `n` holds a callable (which is then none of
`SIG_IGN`, `SIG_DFL`, `None`), and a set tripped flag belongs to a slot holding
a callable. -/
theorem C18_disposition_matches_slot (p : Platform) (rt : Runtime) (thread_ident pid : Int)
    (disposition : Nat → Sighandler)
    (hstart : ∀ n, 1 ≤ n → n < p.NSIG →
      disposition n ≠ Sighandler.signal_handler ∧ disposition n ≠ Sighandler.SIG_ERR)
    (s : State) (hs : ReachableInstalled p rt thread_ident pid disposition s)
    (n : Nat) (hn : 1 ≤ n ∧ n < p.NSIG) :
    (s.disposition n = Sighandler.signal_handler ↔
        (is_callable (s.sig_list n).func = true ∧
          (s.sig_list n).func ≠ Obj.sig_ign_object ∧
          (s.sig_list n).func ≠ Obj.sig_dfl_object ∧
          (s.sig_list n).func ≠ Obj.None)) ∧
      ((s.sig_list n).tripped ≠ 0 → is_callable (s.sig_list n).func = true) := by
  obtain ⟨_, h2, h3⟩ :=
    reachable_installed p rt thread_ident pid disposition hstart s hs n hn.1 hn.2
  refine ⟨?_, h3⟩
  constructor
  · intro hd
    have hc := h2.1 hd
    exact ⟨hc, (is_callable_not_sentinel hc).1, (is_callable_not_sentinel hc).2,
      is_callable_not_None hc⟩
  · intro hc
    exact h2.2 hc.1

theorem C18_disposition_matches_slot_witness :
    ((signal_handler demo_platform 100 7
        (signal_signal demo_platform 1 7 (Obj.funcobject 0) demo_boot).2).disposition 7
        = Sighandler.signal_handler ↔
      (is_callable ((signal_handler demo_platform 100 7
          (signal_signal demo_platform 1 7 (Obj.funcobject 0) demo_boot).2).sig_list 7).func
          = true ∧
        ((signal_handler demo_platform 100 7
          (signal_signal demo_platform 1 7 (Obj.funcobject 0) demo_boot).2).sig_list 7).func
          ≠ Obj.sig_ign_object ∧
        ((signal_handler demo_platform 100 7
          (signal_signal demo_platform 1 7 (Obj.funcobject 0) demo_boot).2).sig_list 7).func
          ≠ Obj.sig_dfl_object ∧
        ((signal_handler demo_platform 100 7
          (signal_signal demo_platform 1 7 (Obj.funcobject 0) demo_boot).2).sig_list 7).func
          ≠ Obj.None)) ∧
      (((signal_handler demo_platform 100 7
          (signal_signal demo_platform 1 7 (Obj.funcobject 0) demo_boot).2).sig_list 7).tripped
          ≠ 0 →
        is_callable ((signal_handler demo_platform 100 7
          (signal_signal demo_platform 1 7 (Obj.funcobject 0) demo_boot).2).sig_list 7).func
          = true) :=
  C18_disposition_matches_slot demo_platform demo_runtime 1 100
    (fun _ => Sighandler.SIG_DFL)
    (fun _ _ _ => ⟨fun h => Sighandler.noConfusion h, fun h => Sighandler.noConfusion h⟩)
    (signal_handler demo_platform 100 7
      (signal_signal demo_platform 1 7 (Obj.funcobject 0) demo_boot).2)
    (ReachableInstalled.step _ _
      (ReachableInstalled.step _ _ ReachableInstalled.boot
        (InstalledStep.signal_signal demo_boot 1 7 (Obj.funcobject 0)))
      (InstalledStep.signal_handler _ 100 7 (by decide) (by decide) (by decide)))
    7 (by decide)

end SignalModule
